import Mathlib

/-!
Verification development for the mod-gm-discord AzerothCore module
(src/src/GMToDiscord.cpp and the Discord bot file bundled with it).

The C++ sources are embedded shallowly: strings are lists of characters,
database rows are Lean structures, database writes and platform calls are
explicit effect values, and the polling loops are modelled per item.
Definitions translated from the source keep the source names.  A few
components of the repository are documented (README, configuration keys)
but their implementation is not present in the source snapshot; those are
modelled from the specification and are marked with a doc comment that
starts with the words Modelled from the spec.
-/

namespace GMDiscord

/-- Open-brace character, written by code point to keep string literals plain. -/
def lbrace : Char := Char.ofNat 123

/-- Close-brace character, written by code point. -/
def rbrace : Char := Char.ofNat 125

/-- C locale isspace over the characters the module ever feeds it. -/
def isSpaceC (c : Char) : Bool :=
  c = ' ' || c = '\t' || c = '\n' || c = '\x0b' || c = '\x0c' || c = '\r'

/-- ASCII tolower, as std::tolower behaves in the C locale. -/
def toLowerC (c : Char) : Char :=
  if 'A' ≤ c ∧ c ≤ 'Z' then Char.ofNat (c.toNat + 32) else c

/-- ASCII isalnum in the C locale. -/
def isAlnumC (c : Char) : Bool :=
  c.isDigit || ('a' ≤ c && c ≤ 'z') || ('A' ≤ c && c ≤ 'Z')

/-- Trim from GMToDiscord.cpp: drop leading and trailing isspace characters. -/
def Trim (value : List Char) : List Char :=
  ((value.dropWhile isSpaceC).reverse.dropWhile isSpaceC).reverse

/-- ToLower from GMToDiscord.cpp: lowercase every character. -/
def ToLower (value : List Char) : List Char :=
  value.map toLowerC

/-- EscapeJson from GMToDiscord.cpp, on one character: backslash, quote and
the three control characters get a two-character escape, everything else is
kept as is. -/
def escapeJsonChar (c : Char) : List Char :=
  if c = '\\' then ['\\', '\\']
  else if c = '"' then ['\\', '"']
  else if c = '\n' then ['\\', 'n']
  else if c = '\r' then ['\\', 'r']
  else if c = '\t' then ['\\', 't']
  else [c]

/-- EscapeJson from GMToDiscord.cpp over a whole string. -/
def EscapeJson : List Char → List Char
  | [] => []
  | c :: cs => escapeJsonChar c ++ EscapeJson cs

/-- std::string::find for a substring, returning the suffix right after the
first occurrence of the needle (FindJsonKeyStart advances past the needle). -/
def findSuffixAfter (needle : List Char) : List Char → Option (List Char)
  | [] => if needle.isPrefixOf ([] : List Char) then some [] else none
  | c :: t =>
    if needle.isPrefixOf (c :: t) then some ((c :: t).drop needle.length)
    else findSuffixAfter needle t

/-- The literal needle built by FindJsonKeyStart: a quoted key followed by a
colon. -/
def quotedKeyNeedle (key : List Char) : List Char :=
  '"' :: key ++ ['"', ':']

/-- The backslash-quoted needle FindJsonKeyStart falls back to. -/
def escapedKeyNeedle (key : List Char) : List Char :=
  '\\' :: '"' :: key ++ ['\\', '"', ':']

/-- FindJsonKeyStart from the Discord bot file: look for the literal quoted
key first and for the backslash-quoted form second, returning the suffix of
the payload right after the needle. -/
def FindJsonKeyStart (payload key : List Char) : Option (List Char) :=
  match findSuffixAfter (quotedKeyNeedle key) payload with
  | some rest => some rest
  | none => findSuffixAfter (escapedKeyNeedle key) payload

/-- The scanning loop inside ExtractJsonBlock: walk the characters tracking
brace depth, string-literal state and escape state, accumulating the scanned
characters in reverse; answer the accumulated block when depth returns to
zero at a closing brace outside a string.  ExtractJsonBlock only starts this
scan at an opening brace, so the source int depth stays non-negative and a
Nat depth is faithful. -/
def blockScan (depth : Nat) (inString escape : Bool) :
    List Char → List Char → Option (List Char)
  | [], _ => none
  | c :: rest, acc =>
    if escape then blockScan depth inString false rest (c :: acc)
    else if c = '\\' then blockScan depth inString true rest (c :: acc)
    else if c = '"' then blockScan depth (!inString) false rest (c :: acc)
    else if inString then blockScan depth inString false rest (c :: acc)
    else if c = lbrace then blockScan (depth + 1) inString false rest (c :: acc)
    else if c = rbrace then
      if depth = 1 then some (c :: acc).reverse
      else blockScan (depth - 1) inString false rest (c :: acc)
    else blockScan depth inString false rest (c :: acc)

/-- ExtractJsonBlock from the Discord bot file: find the key, move to the
next opening brace and scan to the matching closing brace, ignoring braces
inside string literals. -/
def ExtractJsonBlock (payload key : List Char) : Option (List Char) :=
  match FindJsonKeyStart payload key with
  | none => none
  | some rest =>
    match rest.dropWhile (fun c => c != lbrace) with
    | [] => none
    | c :: t => blockScan 0 false false (c :: t) []

/-- The unescaping switch inside ExtractJsonString, applied to the character
right after a backslash. -/
def unescapeJsonChar (c : Char) : Char :=
  if c = 'n' then '\n'
  else if c = 'r' then '\r'
  else if c = 't' then '\t'
  else if c = '\\' then '\\'
  else if c = '"' then '"'
  else c

/-- The value loop inside ExtractJsonString: consume characters until an
unescaped quote, unescaping two-character escapes on the way. -/
def extractStringLoop (escape : Bool) :
    List Char → List Char → Option (List Char)
  | [], _ => none
  | c :: rest, acc =>
    if escape then extractStringLoop false rest (acc ++ [unescapeJsonChar c])
    else if c = '\\' then extractStringLoop true rest acc
    else if c = '"' then some acc
    else extractStringLoop false rest (acc ++ [c])

/-- ExtractJsonString from the Discord bot file: find the key, skip
whitespace, accept either a backslash-quoted or a plain opening quote, then
run the unescaping value loop. -/
def ExtractJsonString (payload key : List Char) : Option (List Char) :=
  match FindJsonKeyStart payload key with
  | none => none
  | some rest =>
    match rest.dropWhile isSpaceC with
    | '\\' :: '"' :: r => extractStringLoop false r []
    | '"' :: r => extractStringLoop false r []
    | _ => none

/-- ExtractJsonNumber from the Discord bot file: find the key, skip
whitespace, take the text up to the next comma or closing brace, trim it and
require it non-empty. -/
def ExtractJsonNumber (payload key : List Char) : Option (List Char) :=
  match FindJsonKeyStart payload key with
  | none => none
  | some rest =>
    let rest2 := rest.dropWhile isSpaceC
    let upto := rest2.takeWhile (fun c => c != Char.ofNat 44 && c != rbrace)
    if rest2.drop upto.length = [] then none
    else
      let out := Trim upto
      if out = [] then none else some out

/-- Fold a digit list into its decimal value. -/
def digitsVal (cs : List Char) : Nat :=
  cs.foldl (fun a c => a * 10 + (c.toNat - 48)) 0

/-- The largest unsigned long value on the target platform. -/
def ULONG_MAX : Nat := 2 ^ 64 - 1

/-- std::stoul: skip leading whitespace, accept an optional sign, require at
least one digit, read the leading digit run, and fail (throw, modelled as
none) when there is no digit or the magnitude is out of range.  A minus sign
negates modulo 2 to the 64, as strtoul does. -/
def stoulChars (cs0 : List Char) : Option Nat :=
  let cs1 := cs0.dropWhile isSpaceC
  let sp : Bool × List Char :=
    match cs1 with
    | [] => (false, [])
    | c :: t => if c = '-' then (true, t) else if c = '+' then (false, t) else (false, c :: t)
  match sp.2 with
  | [] => none
  | c :: _ =>
    if c.isDigit then
      let v := digitsVal (sp.2.takeWhile Char.isDigit)
      if v ≤ ULONG_MAX then
        some (if sp.1 then (2 ^ 64 - v % 2 ^ 64) % 2 ^ 64 else v)
      else none
    else none

/-- ExtractJsonUint from the Discord bot file: extract the number text, run
std::stoul on it, truncate to uint32 and fail on an exception. -/
def ExtractJsonUint (payload key : List Char) : Option Nat :=
  match ExtractJsonNumber payload key with
  | none => none
  | some number =>
    match stoulChars number with
    | none => none
    | some v => some (v % 2 ^ 32)

/-- GetCommandRoot from the Discord bot file: trim, strip one leading dot or
bang, trim again and lowercase the first space-delimited token. -/
def GetCommandRoot (command : List Char) : List Char :=
  let t1 := Trim command
  match t1 with
  | [] => []
  | c :: rest =>
    let t2 := Trim (if c = '.' || c = '!' then rest else c :: rest)
    match t2 with
    | [] => []
    | _ => ToLower (t2.takeWhile (fun c => c != ' '))

/-- GetCommandCategory from the Discord bot file: map the lowercased root
token through the fixed token-to-category table, with misc as the default. -/
def GetCommandCategory (root : List Char) : List Char :=
  let token := ToLower root
  if token = "ticket".toList || token = "tickets".toList then "ticket".toList
  else if token = "tele".toList || token = "teleport".toList || token = "go".toList then "tele".toList
  else if token = "gm".toList || token = "gminfo".toList || token = "gmname".toList then "gm".toList
  else if token = "ban".toList || token = "unban".toList then "ban".toList
  else if token = "account".toList || token = "acc".toList then "account".toList
  else if token = "character".toList || token = "char".toList then "character".toList
  else if token = "lookup".toList || token = "who".toList || token = "name".toList then "lookup".toList
  else if token = "server".toList || token = "shutdown".toList || token = "restart".toList then "server".toList
  else if token = "debug".toList then "debug".toList
  else "misc".toList

/-- IsCommandAllowed from GMToDiscord.cpp: allow everything when the
allow-all flag is set, otherwise require the lowercased trimmed command to be
non-empty and to start with one of the configured (already lowercased)
allow-list prefixes. -/
def IsCommandAllowed (allowAllCommands : Bool) (commandAllowList : List (List Char))
    (command : List Char) : Bool :=
  if allowAllCommands then true
  else
    let trimmed := ToLower (Trim command)
    if trimmed = [] then false
    else commandAllowList.any (fun p => p ≠ [] && p.isPrefixOf trimmed)

/-- One row of the gm_discord_link table. -/
structure Link where
  accountId : Nat
  discordUserId : Option Nat
  verified : Bool
  secretHash : Option (List Char)
  secretExpiresAt : Option Nat
  gmName : List Char
deriving DecidableEq

/-- GetLinkedAccount from GMToDiscord.cpp: the first link row with the given
discord user id, yielding its account id and verified flag. -/
def GetLinkedAccount (links : List Link) (discordUserId : Nat) : Option (Nat × Bool) :=
  (links.find? (fun l => l.discordUserId = some discordUserId)).map
    (fun l => (l.accountId, l.verified))

/-- The row filter and per-row checks of VerifyAndLinkSecret: a row is a
candidate when its secret hash is non-null and non-empty and its expiry lies
in the future, and it matches when the one-way verify of the presented
secret against the stored hash succeeds. -/
def secretMatches (verify : List Char → List Char → Bool) (now : Nat)
    (secret : List Char) (l : Link) : Bool :=
  match l.secretHash, l.secretExpiresAt with
  | some h, some e => decide (now < e) && h ≠ [] && verify secret h
  | _, _ => false

/-- The scan loop of VerifyAndLinkSecret: the account id of the first link
row, in storage order, that matches the presented secret. -/
def authScan (verify : List Char → List Char → Bool) (now : Nat)
    (secret : List Char) : List Link → Option Nat
  | [] => none
  | l :: rest =>
    if secretMatches verify now secret l then some l.accountId
    else authScan verify now secret rest

/-- The update statement of VerifyAndLinkSecret applied to one row: set the
discord user id, mark verified and clear the pending secret and expiry. -/
def linkAfterAuth (discordUserId : Nat) (l : Link) : Link :=
  { l with discordUserId := some discordUserId, verified := true,
           secretHash := none, secretExpiresAt := none }

/-- The update statement of VerifyAndLinkSecret over the table: the LIMIT 1
update on the primary key touches the first row with the matched account
id. -/
def applyAuthLink (discordUserId accountId : Nat) : List Link → List Link
  | [] => []
  | l :: rest =>
    if l.accountId = accountId then linkAfterAuth discordUserId l :: rest
    else l :: applyAuthLink discordUserId accountId rest

/-- VerifyAndLinkSecret from GMToDiscord.cpp: scan the candidate rows in
storage order, and on the first hash the secret verifies against, link that
account to the discord user and clear its pending secret. -/
def VerifyAndLinkSecret (verify : List Char → List Char → Bool) (now : Nat)
    (discordUserId : Nat) (secret : List Char) (links : List Link) :
    Bool × List Link :=
  match authScan verify now secret links with
  | some accountId => (true, applyAuthLink discordUserId accountId links)
  | none => (false, links)

/-- std::string::find for one character, as a split into the part before the
first occurrence and the part after it. -/
def splitAtFirstPipe : List Char → Option (List Char × List Char)
  | [] => none
  | c :: rest =>
    if c = '|' then some ([], rest)
    else (splitAtFirstPipe rest).map (fun pq => (c :: pq.1, pq.2))

/-- ParseWhisperPayload from GMToDiscord.cpp: split at the first two pipe
characters, trim the three parts and require all of them non-empty. -/
def ParseWhisperPayload (payload : List Char) :
    Option (List Char × List Char × List Char) :=
  match splitAtFirstPipe payload with
  | none => none
  | some (first, rest) =>
    match splitAtFirstPipe rest with
    | none => none
    | some (second, third) =>
      let playerName := Trim first
      let gmName := Trim second
      let message := Trim third
      if playerName ≠ [] && gmName ≠ [] && message ≠ [] then
        some (playerName, gmName, message)
      else none

/-- std::to_string worker: peel decimal digits from the low end, prepending
them to the accumulator; the fuel argument bounds the recursion and any fuel
at least the number itself is enough. -/
def natToCharsAux : Nat → Nat → List Char → List Char
  | 0, _, acc => acc
  | fuel + 1, n, acc =>
    if n = 0 then acc
    else natToCharsAux fuel (n / 10) (Char.ofNat (48 + n % 10) :: acc)

/-- std::to_string for an unsigned value. -/
def natToChars (n : Nat) : List Char :=
  if n = 0 then ['0'] else natToCharsAux (n + 1) n []

/-- The configuration values read by LoadSettings that the inbox processor
consults.  The last two fields have no reader in the source snapshot; they
are the README keys GMDiscord.Audit.PayloadMax and GMDiscord.RateLimit and
are Modelled from the spec for the modelled components below. -/
structure Settings where
  enabled : Bool
  whisperEnabled : Bool
  allowAllCommands : Bool
  minSecurity : Nat
  maxResultLength : Nat
  commandAllowList : List (List Char)
  auditPayloadMax : Nat
  rlWindowSeconds : Nat
  rlMaxActions : Nat
  rlMinIntervalMs : Nat

/-- Modelled from the spec: one append-only row of the documented
gm_discord_audit table (README table list; the writer is absent from the
source snapshot). -/
structure AuditEntry where
  discordUserId : Nat
  accountId : Option Nat
  action : List Char
  category : List Char
  status : List Char
  detail : List Char
  payload : List Char
deriving DecidableEq

/-- Observable side effects of processing one inbox item: database writes,
the queued CLI command, the whisper packet, and the modelled audit insert. -/
inductive Eff where
  | markInboxResult (id : Nat) (status result : List Char)
  | markInboxProcessing (id : Nat)
  | queueCommand (id discordUserId accountId : Nat) (command : List Char)
  | sendWhisper (player gmName message : List Char)
  | upsertWhisperSession (player : List Char) (discordUserId : Nat) (gmName : List Char)
  | enqueueOutbox (eventType payload : List Char)
  | auditInsert (e : AuditEntry)
deriving DecidableEq

/-- One row of the gm_discord_inbox table as the poll loop reads it. -/
structure InboxItem where
  id : Nat
  discordUserId : Nat
  action : List Char
  payload : List Char

/-- The game-server collaborators the inbox processor consults: the link
table, AccountMgr security lookup, the online-player resolver, the Argon2
verify primitive, the clock, and (for the modelled gm_whisper event) the
player guid and open-ticket lookups. -/
structure Env where
  links : List Link
  security : Nat → Nat
  onlineByName : List Char → Bool
  verify : List Char → List Char → Bool
  now : Nat
  playerGuidByName : List Char → Nat
  openTicketIdByPlayer : List Char → Nat

/-- Result of processing one inbox item: the final status and result text
written by MarkInboxResult (for a queued command, by the completion
callback), the effect trace, and the link table afterwards. -/
structure Outcome where
  status : List Char
  result : List Char
  effects : List Eff
  links : List Link

/-- MarkInboxResult as an immediate terminal outcome. -/
def done (links : List Link) (id : Nat) (status result : List Char) : Outcome :=
  { status := status, result := result,
    effects := [Eff.markInboxResult id status result], links := links }

/-- The command_result outbox payload built by CommandContext::Finished. -/
def commandResultPayload (id : Nat) (status output : List Char) : List Char :=
  lbrace :: ("\"event\":\"command_result\",\"id\":".toList ++ natToChars id
    ++ ",\"status\":\"".toList ++ status ++ "\",\"output\":\"".toList
    ++ EscapeJson output ++ ['"', rbrace])

/-- One iteration of the ProcessInbox loop from GMToDiscord.cpp, for one
pending inbox row.  The asynchronous CLI completion callback
(CommandContext::Finished) is folded in through the two oracle arguments:
whether the command succeeded and what output the Print callback captured
before truncation. -/
def ProcessInboxItem (s : Settings) (env : Env) (item : InboxItem)
    (cmdSuccess : Bool) (cmdOutput : List Char) : Outcome :=
  let action := ToLower item.action
  if action = "command".toList then
    if ¬ IsCommandAllowed s.allowAllCommands s.commandAllowList item.payload then
      done env.links item.id "forbidden".toList
        "Command not allowed by GMDiscord.CommandAllowList".toList
    else
      match GetLinkedAccount env.links item.discordUserId with
      | none =>
        done env.links item.id "not_linked".toList
          "Discord user is not linked to a GM account".toList
      | some (accountId, verified) =>
        if ¬ verified then
          done env.links item.id "not_verified".toList
            "Discord user is not verified".toList
        else if env.security accountId < s.minSecurity then
          done env.links item.id "forbidden".toList
            "Account security is too low".toList
        else
          let captured := cmdOutput.take s.maxResultLength
          let output :=
            if captured = [] then
              (if cmdSuccess then "OK".toList else "Error".toList)
            else captured
          let status := if cmdSuccess then "ok".toList else "error".toList
          { status := status, result := output,
            effects :=
              [Eff.markInboxProcessing item.id,
               Eff.queueCommand item.id item.discordUserId accountId item.payload,
               Eff.markInboxResult item.id status output,
               Eff.enqueueOutbox "command_result".toList
                 (commandResultPayload item.id status output)],
            links := env.links }
  else if action = "auth".toList then
    if item.payload = [] then
      done env.links item.id "invalid".toList "Missing secret payload".toList
    else
      match VerifyAndLinkSecret env.verify env.now item.discordUserId
          item.payload env.links with
      | (true, links2) =>
        done links2 item.id "ok".toList "Discord user linked successfully".toList
      | (false, links2) =>
        done links2 item.id "invalid".toList "Secret not found or expired".toList
  else if action = "whisper".toList then
    if ¬ s.whisperEnabled then
      done env.links item.id "disabled".toList "Whisper relay disabled".toList
    else
      match GetLinkedAccount env.links item.discordUserId with
      | none =>
        done env.links item.id "not_verified".toList
          "Discord user is not verified".toList
      | some (accountId, verified) =>
        if ¬ verified then
          done env.links item.id "not_verified".toList
            "Discord user is not verified".toList
        else if env.security accountId < s.minSecurity then
          done env.links item.id "forbidden".toList
            "Account security is too low".toList
        else
          match ParseWhisperPayload item.payload with
          | none =>
            done env.links item.id "invalid".toList "Invalid whisper payload".toList
          | some (playerName, gmName, message) =>
            if ¬ env.onlineByName playerName then
              done env.links item.id "player_offline".toList "Player is offline".toList
            else
              { status := "ok".toList, result := "Whisper delivered".toList,
                effects :=
                  [Eff.sendWhisper playerName gmName message,
                   Eff.upsertWhisperSession playerName item.discordUserId gmName,
                   Eff.markInboxResult item.id "ok".toList "Whisper delivered".toList],
                links := env.links }
  else
    done env.links item.id "invalid".toList "Unknown action".toList

/-- Modelled from the spec (section 4.3; the rate limiter has no
implementation in the source snapshot, only the README configuration keys):
evict timestamps older than the window, reject when the most recent retained
timestamp is within the minimum interval of now, reject when the retained
count has reached the action cap, otherwise record now and allow.  The
bucket holds one actor and keeps the most recent timestamp first. -/
def rlCheck (s : Settings) (now : Nat) (bucket : List Nat) : Bool × List Nat :=
  let kept := bucket.filter (fun t => now - s.rlWindowSeconds * 1000 ≤ t)
  let intervalHit :=
    match kept.head? with
    | some t => decide (now - t < s.rlMinIntervalMs)
    | none => false
  if intervalHit then (false, kept)
  else if s.rlMaxActions ≤ kept.length then (false, kept)
  else (true, now :: kept)

/-- Run a sequence of rate-limit checks for one actor, answering the list of
allow decisions and the final bucket. -/
def rlRun (s : Settings) : List Nat → List Nat → List Bool × List Nat
  | [], bucket => ([], bucket)
  | now :: rest, bucket =>
    let step := rlCheck s now bucket
    let tail := rlRun s rest step.2
    (step.1 :: tail.1, tail.2)

/-- Modelled from the spec (section 4.2; no reader of the README key
GMDiscord.CommandCategory MinSecurity exists in the source snapshot): the
required security for a category is the maximum of the global minimum and
the category override, defaulting to the global minimum. -/
def RequiredSecurity (category : List Char) (globalMinimum : Nat)
    (perCategory : List (List Char × Nat)) : Nat :=
  max globalMinimum ((perCategory.lookup category).getD globalMinimum)

/-- Modelled from the spec: the required security of a command string, going
through the source category resolution. -/
def RequiredSecurityForCommand (command : List Char) (globalMinimum : Nat)
    (perCategory : List (List Char × Nat)) : Nat :=
  RequiredSecurity (GetCommandCategory (GetCommandRoot command)) globalMinimum perCategory

/-- Modelled from the spec: the per-category security gate for a command;
true means the account is below the required level and the item is marked
forbidden. -/
def SecurityForbidden (level : Nat) (command : List Char) (globalMinimum : Nat)
    (perCategory : List (List Char × Nat)) : Bool :=
  level < RequiredSecurityForCommand command globalMinimum perCategory

/-- Modelled from the spec: the one audit row written for a disposition,
with the actor, the resolved account when known, the action kind, the
resolved category, the outcome status, the human-readable detail and a
size-capped copy of the payload. -/
def mkAudit (s : Settings) (env : Env) (item : InboxItem)
    (status detail : List Char) : AuditEntry :=
  let action := ToLower item.action
  { discordUserId := item.discordUserId,
    accountId := (GetLinkedAccount env.links item.discordUserId).map Prod.fst,
    action := action,
    category :=
      if action = "command".toList then GetCommandCategory (GetCommandRoot item.payload)
      else action,
    status := status,
    detail := detail,
    payload := item.payload.take s.auditPayloadMax }

/-- Modelled from the spec: the gm_whisper outbox payload documented in the
README, carrying the player, the guid, the GM name, the discord user, any
ticket currently open for the player, and the message. -/
def gmWhisperPayload (env : Env) (discordUserId : Nat)
    (playerName gmName message : List Char) : List Char :=
  lbrace :: ("\"event\":\"gm_whisper\",\"whisper\":".toList ++
    lbrace :: ("\"player\":\"".toList ++ EscapeJson playerName
      ++ "\",\"playerGuid\":".toList ++ natToChars (env.playerGuidByName playerName)
      ++ ",\"gmName\":\"".toList ++ EscapeJson gmName
      ++ "\",\"discordUserId\":".toList ++ natToChars discordUserId
      ++ ",\"ticketId\":".toList ++ natToChars (env.openTicketIdByPlayer playerName)
      ++ ",\"message\":\"".toList ++ EscapeJson message
      ++ ['"', rbrace, rbrace]))

/-- One inbox item processed end to end: the rate-limit gate first
(Modelled from the spec, section 4.4 step 1), then the source dispatch of
ProcessInbox, then the gm_whisper outbox event of a delivered whisper
(Modelled from the spec, section 4.4; the producer is absent from the source
snapshot while its consumer BuildWhisperEmbed is present), and exactly one
audit row for the disposition (Modelled from the spec, section 4.4 step 3).
Answers the outcome together with the actor bucket afterwards. -/
def ProcessInboxItemFull (s : Settings) (env : Env) (bucket : List Nat)
    (item : InboxItem) (cmdSuccess : Bool) (cmdOutput : List Char) :
    Outcome × List Nat :=
  let rl := rlCheck s env.now bucket
  if rl.1 then
    let out := ProcessInboxItem s env item cmdSuccess cmdOutput
    let withWhisperEvent :=
      if ToLower item.action = "whisper".toList ∧ out.status = "ok".toList then
        match ParseWhisperPayload item.payload with
        | some (playerName, gmName, message) =>
          out.effects ++ [Eff.enqueueOutbox "gm_whisper".toList
            (gmWhisperPayload env item.discordUserId playerName gmName message)]
        | none => out.effects
      else out.effects
    ({ out with effects :=
        withWhisperEvent ++ [Eff.auditInsert (mkAudit s env item out.status out.result)] },
     rl.2)
  else
    ({ status := "rate_limited".toList, result := "Rate limit exceeded".toList,
       effects :=
         [Eff.markInboxResult item.id "rate_limited".toList "Rate limit exceeded".toList,
          Eff.auditInsert (mkAudit s env item "rate_limited".toList
            "Rate limit exceeded".toList)],
       links := env.links },
     rl.2)

/-- std::string::find for a substring, as a split of the haystack around the
first occurrence of the needle. -/
def findSplit (needle : List Char) : List Char → Option (List Char × List Char)
  | [] => if needle.isPrefixOf ([] : List Char) then some ([], []) else none
  | c :: t =>
    if needle.isPrefixOf (c :: t) then some ([], (c :: t).drop needle.length)
    else (findSplit needle t).map (fun pq => (c :: pq.1, pq.2))

/-- The find-and-replace loop of FormatTicketRoomName: re-search the whole
string after every replacement, as the source while loop does.  The source
loop does not terminate when the replacement text reintroduces the needle,
so the embedding carries fuel and answers none when the fuel runs out. -/
def replaceAllFuel : Nat → List Char → List Char → List Char → Option (List Char)
  | 0, needle, _, hay =>
    match findSplit needle hay with
    | none => some hay
    | some _ => none
  | fuel + 1, needle, repl, hay =>
    match findSplit needle hay with
    | none => some hay
    | some (pre, post) => replaceAllFuel fuel needle repl (pre ++ repl ++ post)

/-- The sanitize pass of FormatTicketRoomName on one character: whitespace
and anything that is not alphanumeric, a dash or an underscore becomes a
dash. -/
def sanitizeC (c : Char) : Char :=
  if isSpaceC c then '-'
  else if ¬ isAlnumC c ∧ c ≠ '-' ∧ c ≠ '_' then '-'
  else c

/-- The default ticket room name pattern. -/
def defaultRoomPattern : List Char :=
  "ticket-".toList ++ lbrace :: "id".toList ++ rbrace :: ('-' :: lbrace :: "player".toList ++ [rbrace])

/-- The needle for the ticket id placeholder. -/
def idNeedle : List Char := lbrace :: "id".toList ++ [rbrace]

/-- The needle for the player placeholder. -/
def playerNeedle : List Char := lbrace :: "player".toList ++ [rbrace]

/-- FormatTicketRoomName from the Discord bot file: fill the id and player
placeholders of the pattern (default pattern when empty), sanitize every
character and lowercase the result.  Fuel bounds the two source replacement
loops; none means the source loop would not have terminated. -/
def FormatTicketRoomName (fuel : Nat) (pattern player : List Char)
    (ticketId : Nat) : Option (List Char) :=
  let base := if pattern = [] then defaultRoomPattern else pattern
  match replaceAllFuel fuel idNeedle (natToChars ticketId) base with
  | none => none
  | some s1 =>
    match replaceAllFuel fuel playerNeedle player s1 with
    | none => none
    | some s2 => some (ToLower (s2.map sanitizeC))

/-- TryParseTicketIdFromThreadName from the Discord bot file: require the
ticket- prefix, take the text up to the next dash, require it non-empty, run
std::stoul on it, truncate to uint32 and require a positive result; none is
the false return of the source. -/
def TryParseTicketIdFromThreadName (name : List Char) : Option Nat :=
  if ("ticket-".toList).isPrefixOf name then
    let idStr := (name.drop 7).takeWhile (fun c => c != '-')
    if idStr = [] then none
    else
      match stoulChars idStr with
      | none => none
      | some v =>
        let out := v % 2 ^ 32
        if 0 < out then some out else none
  else none

/-- The Discord bot configuration read by DiscordBot::LoadConfig, as far as
the outbox dispatch loop consults it. -/
structure BotCfg where
  outboxChannelId : Nat
  guildId : Nat
  ticketRoomsEnabled : Bool
  ticketRoomCategoryId : Nat
  ticketRoomArchiveCategoryId : Nat
  ticketRoomNameFormat : List Char
  ticketRoomPostUpdates : Bool
  ticketRoomArchiveOnClose : Bool

/-- Observable platform and database effects of the outbox dispatch loop. -/
inductive BotEff where
  | postEmbed (channelId : Nat) (eventType : List Char)
  | postText (channelId : Nat) (content : List Char)
  | createThreadWithMessage (threadName : List Char)
  | archiveThread (threadId : Nat)
  | createTicketChannel (channelName : List Char)
  | editChannel (channelId : Nat)
  | markTicketRoomArchived (ticketId : Nat)
  | markOutboxDispatched (id : Nat)
deriving DecidableEq

/-- Whether the embed builders of the Discord bot file succeed for an event:
each builder fails exactly when its domain block is missing from the
payload. -/
def hasEmbedFor (eventType payload : List Char) : Bool :=
  if eventType = "command_result".toList then
    (ExtractJsonBlock payload ("command".toList)).isSome
  else if eventType = "player_whisper".toList || eventType = "gm_whisper".toList then
    (ExtractJsonBlock payload ("whisper".toList)).isSome
  else if ("ticket_".toList).isPrefixOf eventType then
    (ExtractJsonBlock payload ("ticket".toList)).isSome
  else false

/-- The ticket id the dispatch loop extracts from a payload: the id field of
the ticket block for ticket events, the ticketId field of the whisper block
for whisper events. -/
def outboxTicketId (eventType payload : List Char) : Option Nat :=
  if ("ticket_".toList).isPrefixOf eventType then
    match ExtractJsonBlock payload ("ticket".toList) with
    | some block => ExtractJsonUint block ("id".toList)
    | none => none
  else if eventType = "player_whisper".toList || eventType = "gm_whisper".toList then
    match ExtractJsonBlock payload ("whisper".toList) with
    | some block => ExtractJsonUint block ("ticketId".toList)
    | none => none
  else none

/-- The plain-text fallback posted when no embed applies. -/
def plainOutboxText (eventType payload : List Char) : List Char :=
  '[' :: eventType ++ ']' :: ' ' :: payload

/-- One iteration of the outbox dispatch timer loop of DiscordBot::Start in
the Discord bot file, for one non-dispatched outbox row: post to the outbox
channel (opening a correlated thread for ticket_create), mirror into the
ticket room when configured, archive on close or resolve, and mark the row
dispatched; the continue statement of the source skips that last step when
archive-on-close is disabled.  The asynchronous confirmation callbacks only
feed the correlation maps, so they carry no further control flow here. -/
def DispatchOutboxItem (cfg : BotCfg) (roomChannel : Nat → Option Nat)
    (ticketThread : Nat → Option Nat) (id : Nat)
    (eventType payload : List Char) : List BotEff :=
  let tid := outboxTicketId eventType payload
  let hasTicketId := tid.isSome
  let ticketId := tid.getD 0
  let hasEmbed := hasEmbedFor eventType payload
  let outboxPost : List BotEff :=
    if cfg.outboxChannelId ≠ 0 then
      if eventType = "ticket_create".toList ∧ hasTicketId then
        let playerName :=
          match ExtractJsonString payload ("player".toList) with
          | some p => p
          | none => "player".toList
        let threadName :=
          (FormatTicketRoomName (ticketId + 1) defaultRoomPattern playerName ticketId).getD []
        (if hasEmbed then [BotEff.postEmbed cfg.outboxChannelId eventType]
         else [BotEff.postText cfg.outboxChannelId (plainOutboxText eventType payload)])
          ++ [BotEff.createThreadWithMessage threadName]
      else if hasEmbed then [BotEff.postEmbed cfg.outboxChannelId eventType]
      else [BotEff.postText cfg.outboxChannelId (plainOutboxText eventType payload)]
    else []
  if cfg.ticketRoomsEnabled ∧ hasTicketId ∧ cfg.ticketRoomCategoryId ≠ 0 ∧ cfg.guildId ≠ 0 then
    let channelId := (roomChannel ticketId).getD 0
    let createRoom : List BotEff :=
      if channelId = 0 ∧ eventType = "ticket_create".toList then
        let playerName :=
          match ExtractJsonString payload ("player".toList) with
          | some p => p
          | none => "player".toList
        let channelName :=
          (FormatTicketRoomName (ticketId + 1) cfg.ticketRoomNameFormat playerName ticketId).getD []
        [BotEff.createTicketChannel channelName]
      else []
    let mirror : List BotEff :=
      if channelId ≠ 0 ∧ cfg.ticketRoomPostUpdates then
        if hasEmbed then [BotEff.postEmbed channelId eventType]
        else [BotEff.postText channelId (plainOutboxText eventType payload)]
      else []
    if eventType = "ticket_close".toList ∨ eventType = "ticket_resolve".toList then
      let threadOps : List BotEff :=
        match ticketThread ticketId with
        | some threadId => [BotEff.archiveThread threadId]
        | none => []
      if ¬ cfg.ticketRoomArchiveOnClose then
        outboxPost ++ createRoom ++ mirror ++ threadOps
      else
        outboxPost ++ createRoom ++ mirror ++ threadOps
          ++ (if ¬ hasEmbed then [BotEff.postText channelId ("Ticket closed.".toList)] else [])
          ++ [BotEff.editChannel channelId, BotEff.markTicketRoomArchived ticketId,
              BotEff.markOutboxDispatched id]
    else
      outboxPost ++ createRoom ++ mirror ++ [BotEff.markOutboxDispatched id]
  else
    outboxPost ++ [BotEff.markOutboxDispatched id]

/-! Concrete fixtures used by the theorems below. -/

/-- The terminal outcome statuses of the inbox state machine. -/
def inboxTerminalStatuses : List (List Char) :=
  ["ok".toList, "error".toList, "forbidden".toList, "rate_limited".toList,
   "not_linked".toList, "not_verified".toList, "invalid".toList,
   "player_offline".toList, "disabled".toList]

/-- Whether an effect is the terminal MarkInboxResult write. -/
def effIsMark : Eff → Bool
  | .markInboxResult _ _ _ => true
  | _ => false

/-- Whether an effect is an audit insert. -/
def effIsAudit : Eff → Bool
  | .auditInsert _ => true
  | _ => false

/-- Baseline settings: module on, whisper relay on, allow-list mode with the
default list, minimum security SEC_GAMEMASTER (2), default result cap, and
the documented audit and rate-limit values (payload cap 512, window 10 s,
5 actions, 500 ms minimum interval). -/
def demoSettings : Settings :=
  { enabled := true, whisperEnabled := true, allowAllCommands := false,
    minSecurity := 2, maxResultLength := 4000,
    commandAllowList := [".ticket".toList, ".gm".toList],
    auditPayloadMax := 512,
    rlWindowSeconds := 10, rlMaxActions := 5, rlMinIntervalMs := 500 }

/-- A link row for account 7, linked and verified to discord user 42. -/
def demoVerifiedLink : Link :=
  { accountId := 7, discordUserId := some 42, verified := true,
    secretHash := none, secretExpiresAt := none, gmName := "Gm".toList }

/-- An environment with one verified link, every account at security
SEC_GAMEMASTER (2), and nobody online. -/
def demoEnv : Env :=
  { links := [demoVerifiedLink], security := fun _ => 2,
    onlineByName := fun _ => false, verify := fun _ _ => false, now := 0,
    playerGuidByName := fun _ => 0, openTicketIdByPlayer := fun _ => 0 }

/-- The per-category minimum security of the C3 scenario: ban requires
SEC_ADMINISTRATOR (3) and ticket requires SEC_GAMEMASTER (2). -/
def demoPerCategory : List (List Char × Nat) :=
  [("ban".toList, 3), ("ticket".toList, 2)]

/-- A pending, unverified link row for account 7 whose secret hash H has not
expired. -/
def demoPendingLink : Link :=
  { accountId := 7, discordUserId := none, verified := false,
    secretHash := some ("H".toList), secretExpiresAt := some 100,
    gmName := "Gm".toList }

/-- An environment holding only the pending link, with a verify primitive
that accepts exactly the secret s3cret against the hash H, at a time before
the expiry. -/
def demoAuthEnv : Env :=
  { links := [demoPendingLink], security := fun _ => 2,
    onlineByName := fun _ => false,
    verify := fun sec h => sec = "s3cret".toList && h = "H".toList, now := 50,
    playerGuidByName := fun _ => 0, openTicketIdByPlayer := fun _ => 0 }

/-- An environment with the verified link where the player Alice is online
with guid 9 and an open ticket 3. -/
def demoWhisperEnv : Env :=
  { links := [demoVerifiedLink], security := fun _ => 2,
    onlineByName := fun p => p = "Alice".toList, verify := fun _ _ => false,
    now := 0, playerGuidByName := fun _ => 9, openTicketIdByPlayer := fun _ => 3 }

/-- Bot configuration of the C4 failing input: outbox channel 1, guild 7,
ticket rooms enabled under category 5, and archive-on-close disabled. -/
def c4CfgNoArchive : BotCfg :=
  { outboxChannelId := 1, guildId := 7, ticketRoomsEnabled := true,
    ticketRoomCategoryId := 5, ticketRoomArchiveCategoryId := 0,
    ticketRoomNameFormat := [], ticketRoomPostUpdates := true,
    ticketRoomArchiveOnClose := false }

/-- The same bot configuration with archive-on-close enabled. -/
def c4CfgArchive : BotCfg :=
  { c4CfgNoArchive with ticketRoomArchiveOnClose := true }

/-- The ticket_close outbox payload of the C4 failing input, with its nested
ticket block for ticket 3. -/
def c4Payload : List Char :=
  lbrace :: "\"event\":\"ticket_close\",\"ticket\":".toList
    ++ lbrace :: "\"id\":3".toList ++ [rbrace, rbrace]

/-- The ticket room table of the C4 failing input: ticket 3 has room 9. -/
def c4RoomChannel : Nat → Option Nat := fun t => if t = 3 then some 9 else none

/-- The C8 payload whose inner block carries a closing brace inside a string
value. -/
def c8Payload : List Char :=
  lbrace :: "\"a\":".toList ++ lbrace :: "\"b\":\"".toList
    ++ rbrace :: "\"".toList ++ [rbrace, rbrace]

/-- The block ExtractJsonBlock must return for the C8 payload. -/
def c8Block : List Char :=
  lbrace :: "\"b\":\"".toList ++ rbrace :: "\"".toList ++ [rbrace]

/-- A truncated payload with no balanced block after the key. -/
def c8Unbalanced : List Char :=
  lbrace :: "\"a\":".toList ++ lbrace :: "\"b\":1".toList

/-- A payload whose key holds a number, so no block follows it. -/
def c8NumberValue : List Char :=
  lbrace :: "\"a\":1".toList ++ [rbrace]

/-- The C6 failing input: a ticket_assign inbox item from the verified,
GM-level actor 42, carrying the documented ticketId pipe gmName payload. -/
def c6Item : InboxItem :=
  { id := 1, discordUserId := 42, action := "ticket_assign".toList,
    payload := "5|Bob".toList }

/-- An auth inbox item carrying the demo secret. -/
def c5Item : InboxItem :=
  { id := 2, discordUserId := 42, action := "auth".toList,
    payload := "s3cret".toList }

/-- A whisper inbox item for the online player Alice. -/
def c7Item : InboxItem :=
  { id := 3, discordUserId := 42, action := "whisper".toList,
    payload := "Alice|Bob|hi there".toList }

/-! Theorems. -/

/-- C2: the rate limiter (modelled from the spec, since no implementation is
present in the source snapshot) first evicts timestamps older than the
window, rejects without recording when the most recent retained timestamp is
within the minimum interval of now or when the retained count has reached
the action cap, and otherwise records now; a rejected inbox item is marked
done rate_limited with one audit row and no further processing; and with
window 10 s, five actions and a 500 ms minimum interval, the sixth of six
actions inside one second from one actor is rejected. -/
theorem C2_rate_limiter :
    (∀ (s : Settings) (now : Nat) (bucket : List Nat),
      ((rlCheck s now bucket).1 = false →
        (rlCheck s now bucket).2 =
          bucket.filter (fun t => now - s.rlWindowSeconds * 1000 ≤ t)) ∧
      ((rlCheck s now bucket).1 = true →
        (rlCheck s now bucket).2 =
          now :: bucket.filter (fun t => now - s.rlWindowSeconds * 1000 ≤ t)) ∧
      ((rlCheck s now bucket).1 = false ↔
        (∃ t, (bucket.filter (fun t => now - s.rlWindowSeconds * 1000 ≤ t)).head? = some t ∧
          now - t < s.rlMinIntervalMs) ∨
        s.rlMaxActions ≤
          (bucket.filter (fun t => now - s.rlWindowSeconds * 1000 ≤ t)).length)) ∧
    (∀ (s : Settings) (env : Env) (bucket : List Nat) (item : InboxItem)
        (cS : Bool) (cO : List Char),
      (rlCheck s env.now bucket).1 = false →
      (ProcessInboxItemFull s env bucket item cS cO).1.status = "rate_limited".toList ∧
      (ProcessInboxItemFull s env bucket item cS cO).1.effects =
        [Eff.markInboxResult item.id ("rate_limited".toList) ("Rate limit exceeded".toList),
         Eff.auditInsert (mkAudit s env item ("rate_limited".toList)
           ("Rate limit exceeded".toList))] ∧
      (ProcessInboxItemFull s env bucket item cS cO).1.links = env.links) ∧
    (rlRun demoSettings [0, 100, 200, 300, 400, 450] []).1 =
      [true, false, false, false, false, false] := by
  refine ⟨?_, ?_, by decide⟩
  · intro s now bucket
    simp only [rlCheck]
    generalize List.filter (fun t => decide (now - s.rlWindowSeconds * 1000 ≤ t)) bucket = K
    rcases hh : K.head? with _ | t
    · by_cases hc : s.rlMaxActions ≤ K.length
      · simp [hh, hc]
      · simp [hh, hc]
    · by_cases hi : now - t < s.rlMinIntervalMs
      · simp [hh, hi]
      · by_cases hc : s.rlMaxActions ≤ K.length
        · simp [hh, hi, hc]
        · simp [hh, hi, hc]
  · intro s env bucket item cS cO h
    simp only [ProcessInboxItemFull, h]
    exact ⟨rfl, rfl, rfl⟩

/-- C2 witness: a concrete rejected check, one second after an action at the
same instant, and the six-action scenario. -/
theorem C2_rate_limiter_witness :
    (rlCheck demoSettings demoEnv.now [0]).1 = false ∧
    (ProcessInboxItemFull demoSettings demoEnv [0] c6Item true []).1.status =
      "rate_limited".toList ∧
    (rlRun demoSettings [0, 100, 200, 300, 400, 450] []).1 =
      [true, false, false, false, false, false] :=
  ⟨by decide,
   (C2_rate_limiter.2.1 demoSettings demoEnv [0] c6Item true [] (by decide)).1,
   C2_rate_limiter.2.2⟩

/-- C3: the required security of a command is the maximum of the global
minimum and the per-category minimum of its resolved category (modelled from
the spec, since the source snapshot has no reader of the per-category keys),
defaulting to the global minimum without an override; the source category
resolution sends .ban to the ban category and .ticket assign 5 Bob to the
ticket category, so with ban at Administrator (3), ticket at GameMaster (2)
and global minimum GameMaster (2), a GameMaster-level account is forbidden
the former and allowed the latter. -/
theorem C3_per_category_security :
    (∀ (category : List Char) (g : Nat) (pc : List (List Char × Nat)),
      pc.lookup category = none → RequiredSecurity category g pc = g) ∧
    (∀ (category : List Char) (g v : Nat) (pc : List (List Char × Nat)),
      pc.lookup category = some v → RequiredSecurity category g pc = max g v) ∧
    GetCommandCategory (GetCommandRoot (".ban".toList)) = "ban".toList ∧
    GetCommandCategory (GetCommandRoot (".ticket assign 5 Bob".toList)) = "ticket".toList ∧
    RequiredSecurityForCommand (".ban".toList) 2 demoPerCategory = 3 ∧
    RequiredSecurityForCommand (".ticket assign 5 Bob".toList) 2 demoPerCategory = 2 ∧
    SecurityForbidden 2 (".ban".toList) 2 demoPerCategory = true ∧
    SecurityForbidden 2 (".ticket assign 5 Bob".toList) 2 demoPerCategory = false := by
  refine ⟨?_, ?_, by decide, by decide, by decide, by decide, by decide, by decide⟩
  · intro c g pc h
    simp [RequiredSecurity, h]
  · intro c g v pc h
    simp [RequiredSecurity, h]

/-- C3 witness: the misc category has no override in the demo table, so the
required security is the global minimum. -/
theorem C3_per_category_security_witness :
    RequiredSecurity ("misc".toList) 2 demoPerCategory = 2 :=
  C3_per_category_security.1 ("misc".toList) 2 demoPerCategory (by decide)

/-- C4: on a ticket_close outbox row with ticket rooms enabled and
archive-on-close disabled, the continue statement of the dispatch loop skips
MarkOutboxDispatched, so the row is never marked dispatched and will be
re-delivered every cycle; with archive-on-close enabled the same row is
marked, showing the skip is specific to that branch. -/
theorem C4_close_without_archive_never_marked :
    BotEff.markOutboxDispatched 11 ∉
      DispatchOutboxItem c4CfgNoArchive c4RoomChannel (fun _ => none) 11
        ("ticket_close".toList) c4Payload ∧
    BotEff.markOutboxDispatched 11 ∈
      DispatchOutboxItem c4CfgArchive c4RoomChannel (fun _ => none) 11
        ("ticket_close".toList) c4Payload ∧
    BotEff.markOutboxDispatched 11 ∈
      DispatchOutboxItem c4CfgNoArchive c4RoomChannel (fun _ => none) 11
        ("ticket_update".toList) c4Payload := by
  refine ⟨by decide, by decide, by decide⟩

/-- Every successful blockScan answer extends the reversed accumulator and
ends at a closing brace. -/
theorem blockScan_some_shape :
    ∀ (cs : List Char) (depth : Nat) (inString escape : Bool) (acc out : List Char),
      blockScan depth inString escape cs acc = some out →
      ∃ ps, out = acc.reverse ++ ps ++ [rbrace] := by
  intro cs
  induction cs with
  | nil =>
    intro depth inString escape acc out h
    simp [blockScan] at h
  | cons c rest ih =>
    intro depth inString escape acc out h
    simp only [blockScan] at h
    split_ifs at h with h1 h2 h3 h4 h5 h6 h7
    · obtain ⟨ps, hps⟩ := ih _ _ _ _ _ h
      exact ⟨c :: ps, by simp [hps]⟩
    · obtain ⟨ps, hps⟩ := ih _ _ _ _ _ h
      exact ⟨c :: ps, by simp [hps]⟩
    · obtain ⟨ps, hps⟩ := ih _ _ _ _ _ h
      exact ⟨c :: ps, by simp [hps]⟩
    · obtain ⟨ps, hps⟩ := ih _ _ _ _ _ h
      exact ⟨c :: ps, by simp [hps]⟩
    · obtain ⟨ps, hps⟩ := ih _ _ _ _ _ h
      exact ⟨c :: ps, by simp [hps]⟩
    · cases h
      exact ⟨[], by simp [h6]⟩
    · obtain ⟨ps, hps⟩ := ih _ _ _ _ _ h
      exact ⟨c :: ps, by simp [hps]⟩
    · obtain ⟨ps, hps⟩ := ih _ _ _ _ _ h
      exact ⟨c :: ps, by simp [hps]⟩

/-- The head surviving a dropWhile that skips everything other than an open
brace is an open brace. -/
theorem dropWhile_ne_lbrace_head :
    ∀ (l : List Char) (c : Char) (t : List Char),
      l.dropWhile (fun x => x != lbrace) = c :: t → c = lbrace := by
  intro l
  induction l with
  | nil => intro c t h; simp [List.dropWhile] at h
  | cons a l ih =>
    intro c t h
    rw [List.dropWhile_cons] at h
    by_cases ha : (a != lbrace) = true
    · rw [if_pos ha] at h
      exact ih _ _ h
    · rw [if_neg ha] at h
      injection h with h1 _
      subst h1
      simpa using ha

/-- C8: ExtractJsonBlock recovers the balanced-brace block after the key
even when a closing brace sits inside a string value of the same object,
every successful extraction starts at an open brace and ends at the matching
close brace, and malformed input (no balanced block, or a non-object value)
answers not-found instead of throwing. -/
theorem C8_extract_block_balanced :
    ExtractJsonBlock c8Payload ("a".toList) = some c8Block ∧
    (∀ (payload key out : List Char), ExtractJsonBlock payload key = some out →
      out.head? = some lbrace ∧ out.getLast? = some rbrace) ∧
    ExtractJsonBlock c8Unbalanced ("a".toList) = none ∧
    ExtractJsonBlock c8NumberValue ("a".toList) = none := by
  refine ⟨by decide, ?_, by decide, by decide⟩
  intro payload key out h
  unfold ExtractJsonBlock at h
  rcases hf : FindJsonKeyStart payload key with _ | rest <;> rw [hf] at h
  · exact absurd h (by simp)
  · dsimp only at h
    rcases hd : rest.dropWhile (fun c => c != lbrace) with _ | ⟨c, t⟩ <;> rw [hd] at h
    · exact absurd h (by simp)
    · dsimp only at h
      have hc : c = lbrace := dropWhile_ne_lbrace_head rest c t hd
      subst hc
      have e : blockScan 0 false false (lbrace :: t) [] = blockScan 1 false false t [lbrace] := rfl
      rw [e] at h
      obtain ⟨ps, hps⟩ := blockScan_some_shape t 1 false false [lbrace] out h
      subst hps
      refine ⟨rfl, ?_⟩
      exact List.getLast?_concat _

/-- C8 witness: the balanced-shape consequence evaluated on the exemplar
block. -/
theorem C8_extract_block_balanced_witness :
    c8Block.head? = some lbrace ∧ c8Block.getLast? = some rbrace :=
  C8_extract_block_balanced.2.1 c8Payload ("a".toList) c8Block (by decide)

/-- The ExtractJsonString value loop undoes EscapeJson exactly, for any
following text and any accumulator. -/
theorem extractStringLoop_escape (cs : List Char) :
    ∀ (rest acc : List Char),
      extractStringLoop false (EscapeJson cs ++ '"' :: rest) acc = some (acc ++ cs) := by
  induction cs with
  | nil =>
    intro rest acc
    simp [EscapeJson, extractStringLoop]
  | cons c cs ih =>
    intro rest acc
    by_cases h1 : c = '\\'
    · subst h1
      simp [EscapeJson, escapeJsonChar, extractStringLoop, unescapeJsonChar,
        List.append_assoc, ih]
    · by_cases h2 : c = '"'
      · subst h2
        simp [EscapeJson, escapeJsonChar, extractStringLoop, unescapeJsonChar,
          List.append_assoc, ih]
      · by_cases h3 : c = '\n'
        · subst h3
          simp [EscapeJson, escapeJsonChar, extractStringLoop, unescapeJsonChar,
            List.append_assoc, ih]
        · by_cases h4 : c = '\r'
          · subst h4
            simp [EscapeJson, escapeJsonChar, extractStringLoop, unescapeJsonChar,
              List.append_assoc, ih]
          · by_cases h5 : c = '\t'
            · subst h5
              simp [EscapeJson, escapeJsonChar, extractStringLoop, unescapeJsonChar,
                List.append_assoc, ih]
            · simp [EscapeJson, escapeJsonChar, extractStringLoop, unescapeJsonChar,
                h1, h2, h3, h4, h5, List.append_assoc, ih]

/-- C9: for every string x, including ones holding control characters,
quotes or backslashes, extracting the string field whose value the encoder
produced gives back exactly x: ExtractJsonString applied to a JSON object
whose field k carries EscapeJson of x yields x. -/
theorem C9_escape_extract_roundtrip (x : List Char) :
    ExtractJsonString
      (lbrace :: '"' :: 'k' :: '"' :: ':' :: '"' :: (EscapeJson x ++ ['"', rbrace]))
      ("k".toList) = some x := by
  have hf : FindJsonKeyStart
      (lbrace :: '"' :: 'k' :: '"' :: ':' :: '"' :: (EscapeJson x ++ ['"', rbrace]))
      ("k".toList) = some ('"' :: (EscapeJson x ++ ['"', rbrace])) := by
    unfold FindJsonKeyStart
    have hstep : findSuffixAfter (quotedKeyNeedle ("k".toList))
        (lbrace :: '"' :: 'k' :: '"' :: ':' :: '"' :: (EscapeJson x ++ ['"', rbrace]))
        = some ('"' :: (EscapeJson x ++ ['"', rbrace])) := by
      simp [findSuffixAfter, quotedKeyNeedle, List.isPrefixOf]
    rw [hstep]
  unfold ExtractJsonString
  rw [hf]
  dsimp only
  rw [show ('"' :: (EscapeJson x ++ ['"', rbrace])).dropWhile isSpaceC
      = '"' :: (EscapeJson x ++ ['"', rbrace]) from by simp [List.dropWhile, isSpaceC]]
  simpa using extractStringLoop_escape x [rbrace] []

/-- The VerifyAndLinkSecret scan answers the first matching row in storage
order. -/
theorem authScan_of_first (verify : List Char → List Char → Bool) (now : Nat)
    (secret : List Char) :
    ∀ (pre : List Link) (l : Link) (post : List Link),
      (∀ l2 ∈ pre, secretMatches verify now secret l2 = false) →
      secretMatches verify now secret l = true →
      authScan verify now secret (pre ++ l :: post) = some l.accountId := by
  intro pre
  induction pre with
  | nil =>
    intro l post _ hl
    simp [authScan, hl]
  | cons a pre ih =>
    intro l post hpre hl
    have ha : secretMatches verify now secret a = false := hpre a (by simp)
    have hstep : authScan verify now secret ((a :: pre) ++ l :: post) =
        authScan verify now secret (pre ++ l :: post) := by
      simp [authScan, ha]
    rw [hstep]
    exact ih l post (fun l2 h2 => hpre l2 (by simp [h2])) hl

/-- The VerifyAndLinkSecret scan answers none when no row matches. -/
theorem authScan_none_of_all (verify : List Char → List Char → Bool) (now : Nat)
    (secret : List Char) :
    ∀ (links : List Link),
      (∀ l ∈ links, secretMatches verify now secret l = false) →
      authScan verify now secret links = none := by
  intro links
  induction links with
  | nil => intro _; rfl
  | cons a rest ih =>
    intro h
    have ha : secretMatches verify now secret a = false := h a (by simp)
    simp only [authScan, ha, Bool.false_eq_true, if_false]
    exact ih (fun l hl => h l (by simp [hl]))

/-- The auth update touches exactly the first row carrying the matched
account id. -/
theorem applyAuthLink_of_first (uid : Nat) :
    ∀ (pre : List Link) (l : Link) (post : List Link),
      (∀ l2 ∈ pre, l2.accountId ≠ l.accountId) →
      applyAuthLink uid l.accountId (pre ++ l :: post) =
        pre ++ linkAfterAuth uid l :: post := by
  intro pre
  induction pre with
  | nil =>
    intro l post _
    simp [applyAuthLink]
  | cons a pre ih =>
    intro l post hpre
    have ha : a.accountId ≠ l.accountId := hpre a (by simp)
    simp only [List.cons_append, applyAuthLink, if_neg ha]
    exact congrArg (fun x => a :: x) (ih l post (fun l2 h2 => hpre l2 (by simp [h2])))

/-- A row just linked by auth has no pending secret, so it can never match
again. -/
theorem secretMatches_linkAfterAuth (verify : List Char → List Char → Bool)
    (now : Nat) (secret : List Char) (uid : Nat) (l : Link) :
    secretMatches verify now secret (linkAfterAuth uid l) = false := by
  simp [secretMatches, linkAfterAuth]

/-- The auth branch of ProcessInbox, isolated. -/
theorem processInboxItem_auth_eq (s : Settings) (env : Env) (item : InboxItem)
    (cS : Bool) (cO : List Char) (hact : ToLower item.action = "auth".toList) :
    ProcessInboxItem s env item cS cO =
      (if item.payload = [] then
        done env.links item.id "invalid".toList "Missing secret payload".toList
      else
        match VerifyAndLinkSecret env.verify env.now item.discordUserId
            item.payload env.links with
        | (true, links2) =>
          done links2 item.id "ok".toList "Discord user linked successfully".toList
        | (false, links2) =>
          done links2 item.id "invalid".toList "Secret not found or expired".toList) := by
  unfold ProcessInboxItem
  rw [hact]
  rw [if_neg (by decide : ¬ ("auth".toList = "command".toList))]
  rw [if_pos rfl]

/-- C5: an auth item with an empty payload is done invalid with no Link
modified; with a non-empty secret the pending non-expired hashes are tried
in storage order and on no match the item is done invalid with no Link
modified; on a first match (account ids unique, as the primary key
guarantees) exactly that one Link gets the platform user id, verified true
and its pending hash and expiry cleared and the item is done ok; and when
the matched row was the only one the secret verifies against, the same
secret afterwards matches nothing. -/
theorem C5_auth_first_match_single_use (s : Settings) (env : Env)
    (item : InboxItem) (cS : Bool) (cO : List Char)
    (hact : ToLower item.action = "auth".toList) :
    (item.payload = [] →
      (ProcessInboxItem s env item cS cO).status = "invalid".toList ∧
      (ProcessInboxItem s env item cS cO).links = env.links) ∧
    (item.payload ≠ [] →
      authScan env.verify env.now item.payload env.links = none →
      (ProcessInboxItem s env item cS cO).status = "invalid".toList ∧
      (ProcessInboxItem s env item cS cO).links = env.links) ∧
    (∀ (pre : List Link) (l : Link) (post : List Link),
      item.payload ≠ [] →
      env.links = pre ++ l :: post →
      (∀ l2 ∈ pre, secretMatches env.verify env.now item.payload l2 = false) →
      secretMatches env.verify env.now item.payload l = true →
      (∀ l2 ∈ pre, l2.accountId ≠ l.accountId) →
      (ProcessInboxItem s env item cS cO).status = "ok".toList ∧
      (ProcessInboxItem s env item cS cO).links =
        pre ++ linkAfterAuth item.discordUserId l :: post ∧
      ((∀ l2 ∈ post, secretMatches env.verify env.now item.payload l2 = false) →
        authScan env.verify env.now item.payload
          (ProcessInboxItem s env item cS cO).links = none)) := by
  rw [processInboxItem_auth_eq s env item cS cO hact]
  refine ⟨?_, ?_, ?_⟩
  · intro hp
    rw [if_pos hp]
    exact ⟨rfl, rfl⟩
  · intro hp hnone
    rw [if_neg hp]
    unfold VerifyAndLinkSecret
    rw [hnone]
    exact ⟨rfl, rfl⟩
  · intro pre l post hp hlinks hpre hl hpreacc
    rw [if_neg hp]
    have hscan : authScan env.verify env.now item.payload env.links = some l.accountId := by
      rw [hlinks]
      exact authScan_of_first _ _ _ pre l post hpre hl
    have hv : VerifyAndLinkSecret env.verify env.now item.discordUserId
        item.payload env.links =
        (true, pre ++ linkAfterAuth item.discordUserId l :: post) := by
      unfold VerifyAndLinkSecret
      rw [hscan]
      dsimp only
      rw [hlinks, applyAuthLink_of_first item.discordUserId pre l post hpreacc]
    rw [hv]
    refine ⟨rfl, rfl, ?_⟩
    intro hpost
    apply authScan_none_of_all
    intro l2 hmem
    rcases List.mem_append.1 hmem with h2 | h2
    · exact hpre l2 h2
    · rcases List.mem_cons.1 h2 with h3 | h3
      · rw [h3]
        exact secretMatches_linkAfterAuth _ _ _ _ _
      · exact hpost l2 h3

/-- C5 witness: the demo secret links the single pending row, clears it, and
the same secret afterwards matches nothing. -/
theorem C5_auth_first_match_single_use_witness :
    (ProcessInboxItem demoSettings demoAuthEnv c5Item true []).status = "ok".toList ∧
    (ProcessInboxItem demoSettings demoAuthEnv c5Item true []).links =
      [linkAfterAuth 42 demoPendingLink] ∧
    authScan demoAuthEnv.verify demoAuthEnv.now c5Item.payload
      (ProcessInboxItem demoSettings demoAuthEnv c5Item true []).links = none := by
  have h := (C5_auth_first_match_single_use demoSettings demoAuthEnv c5Item true []
    (by decide)).2.2 [] demoPendingLink [] (by decide) rfl (by simp)
    (by decide) (by simp)
  exact ⟨h.1, h.2.1, h.2.2 (by simp)⟩

/-- The pipe split decomposes its input around the first pipe. -/
theorem splitAtFirstPipe_eq :
    ∀ (s a b : List Char), splitAtFirstPipe s = some (a, b) →
      s = a ++ '|' :: b ∧ '|' ∉ a := by
  intro s
  induction s with
  | nil => intro a b h; simp [splitAtFirstPipe] at h
  | cons c rest ih =>
    intro a b h
    by_cases hc : c = '|'
    · subst hc
      simp only [splitAtFirstPipe, if_pos rfl, if_true, Option.some.injEq, Prod.mk.injEq] at h
      obtain ⟨ha, hb⟩ := h
      subst ha
      subst hb
      simp
    · simp only [splitAtFirstPipe, if_neg hc] at h
      rcases hr : splitAtFirstPipe rest with _ | ⟨a2, b2⟩ <;> rw [hr] at h
      · simp at h
      · dsimp only [Option.map] at h
        injection h with h2
        injection h2 with ha hb
        subst hb
        subst ha
        obtain ⟨hs2, hni⟩ := ih a2 b2 hr
        constructor
        · simp [hs2]
        · simp only [List.mem_cons, not_or]
          exact ⟨fun he => hc he.symm, hni⟩

/-- A successful whisper parse comes from a payload split at its first two
pipes into three trimmed non-empty fields. -/
theorem parseWhisperPayload_inversion (payload p g m : List Char)
    (h : ParseWhisperPayload payload = some (p, g, m)) :
    ∃ r1 r2 r3, payload = r1 ++ '|' :: (r2 ++ '|' :: r3) ∧
      '|' ∉ r1 ∧ '|' ∉ r2 ∧
      p = Trim r1 ∧ g = Trim r2 ∧ m = Trim r3 ∧
      p ≠ [] ∧ g ≠ [] ∧ m ≠ [] := by
  unfold ParseWhisperPayload at h
  rcases h1 : splitAtFirstPipe payload with _ | ⟨first, rest⟩ <;> rw [h1] at h
  · simp at h
  · dsimp only at h
    rcases h2 : splitAtFirstPipe rest with _ | ⟨second, third⟩ <;> rw [h2] at h
    · simp at h
    · dsimp only at h
      split_ifs at h with hne
      · simp only [Option.some.injEq, Prod.mk.injEq] at h
        obtain ⟨hp, hg, hm⟩ := h
        obtain ⟨hs1, hni1⟩ := splitAtFirstPipe_eq payload first rest h1
        obtain ⟨hs2, hni2⟩ := splitAtFirstPipe_eq rest second third h2
        simp only [Bool.and_eq_true, ne_eq, decide_eq_true_eq] at hne
        refine ⟨first, second, third, ?_, hni1, hni2, hp.symm, hg.symm, hm.symm,
          ?_, ?_, ?_⟩
        · rw [hs1, hs2]
        · rw [← hp]; exact hne.1.1
        · rw [← hg]; exact hne.1.2
        · rw [← hm]; exact hne.2

/-- The whisper branch of ProcessInbox, isolated. -/
theorem processInboxItem_whisper_eq (s : Settings) (env : Env) (item : InboxItem)
    (cS : Bool) (cO : List Char) (hact : ToLower item.action = "whisper".toList) :
    ProcessInboxItem s env item cS cO =
      (if ¬ s.whisperEnabled then
        done env.links item.id "disabled".toList "Whisper relay disabled".toList
      else
        match GetLinkedAccount env.links item.discordUserId with
        | none =>
          done env.links item.id "not_verified".toList
            "Discord user is not verified".toList
        | some (accountId, verified) =>
          if ¬ verified then
            done env.links item.id "not_verified".toList
              "Discord user is not verified".toList
          else if env.security accountId < s.minSecurity then
            done env.links item.id "forbidden".toList
              "Account security is too low".toList
          else
            match ParseWhisperPayload item.payload with
            | none =>
              done env.links item.id "invalid".toList "Invalid whisper payload".toList
            | some (playerName, gmName, message) =>
              if ¬ env.onlineByName playerName then
                done env.links item.id "player_offline".toList
                  "Player is offline".toList
              else
                { status := "ok".toList, result := "Whisper delivered".toList,
                  effects :=
                    [Eff.sendWhisper playerName gmName message,
                     Eff.upsertWhisperSession playerName item.discordUserId gmName,
                     Eff.markInboxResult item.id "ok".toList "Whisper delivered".toList],
                  links := env.links }) := by
  unfold ProcessInboxItem
  rw [hact]
  rw [if_neg (by decide : ¬ ("whisper".toList = "command".toList)),
    if_neg (by decide : ¬ ("whisper".toList = "auth".toList)), if_pos rfl]

/-- C7: a whisper item from a rate-limit-allowed, verified actor with
sufficient security is done invalid when the payload does not split at its
first two pipes into three trimmed non-empty fields, done player_offline
when the target is not online, and otherwise the whisper is delivered as
the GM name, the whisper session is upserted for the player, the item is
done ok and a gm_whisper outbox event is enqueued (the producer of that
event is modelled from the spec; its consumer BuildWhisperEmbed is in the
source). -/
theorem C7_whisper_relay (s : Settings) (env : Env) (bucket : List Nat)
    (item : InboxItem) (cS : Bool) (cO : List Char) (accountId : Nat)
    (hact : ToLower item.action = "whisper".toList)
    (hen : s.whisperEnabled = true)
    (hrl : (rlCheck s env.now bucket).1 = true)
    (hlink : GetLinkedAccount env.links item.discordUserId = some (accountId, true))
    (hsec : s.minSecurity ≤ env.security accountId) :
    (ParseWhisperPayload item.payload = none →
      (ProcessInboxItemFull s env bucket item cS cO).1.status = "invalid".toList) ∧
    (∀ p g m, ParseWhisperPayload item.payload = some (p, g, m) →
      (env.onlineByName p = false →
        (ProcessInboxItemFull s env bucket item cS cO).1.status =
          "player_offline".toList) ∧
      (env.onlineByName p = true →
        (ProcessInboxItemFull s env bucket item cS cO).1.status = "ok".toList ∧
        Eff.sendWhisper p g m ∈
          (ProcessInboxItemFull s env bucket item cS cO).1.effects ∧
        Eff.upsertWhisperSession p item.discordUserId g ∈
          (ProcessInboxItemFull s env bucket item cS cO).1.effects ∧
        Eff.markInboxResult item.id "ok".toList "Whisper delivered".toList ∈
          (ProcessInboxItemFull s env bucket item cS cO).1.effects ∧
        Eff.enqueueOutbox "gm_whisper".toList
            (gmWhisperPayload env item.discordUserId p g m) ∈
          (ProcessInboxItemFull s env bucket item cS cO).1.effects) ∧
      (∃ r1 r2 r3, item.payload = r1 ++ '|' :: (r2 ++ '|' :: r3) ∧
        '|' ∉ r1 ∧ '|' ∉ r2 ∧ p = Trim r1 ∧ g = Trim r2 ∧ m = Trim r3 ∧
        p ≠ [] ∧ g ≠ [] ∧ m ≠ [])) := by
  have hred : ProcessInboxItem s env item cS cO =
      (match ParseWhisperPayload item.payload with
       | none =>
         done env.links item.id "invalid".toList "Invalid whisper payload".toList
       | some (playerName, gmName, message) =>
         if ¬ env.onlineByName playerName then
           done env.links item.id "player_offline".toList "Player is offline".toList
         else
           { status := "ok".toList, result := "Whisper delivered".toList,
             effects :=
               [Eff.sendWhisper playerName gmName message,
                Eff.upsertWhisperSession playerName item.discordUserId gmName,
                Eff.markInboxResult item.id "ok".toList "Whisper delivered".toList],
             links := env.links }) := by
    rw [processInboxItem_whisper_eq s env item cS cO hact, hen, hlink]
    rw [if_neg (by simp)]
    dsimp only
    rw [if_neg (by simp), if_neg (Nat.not_lt.mpr hsec)]
  have hfull : (ProcessInboxItemFull s env bucket item cS cO).1 =
      (let out := ProcessInboxItem s env item cS cO
       { out with effects :=
          (if ToLower item.action = "whisper".toList ∧ out.status = "ok".toList then
            match ParseWhisperPayload item.payload with
            | some (playerName, gmName, message) =>
              out.effects ++ [Eff.enqueueOutbox "gm_whisper".toList
                (gmWhisperPayload env item.discordUserId playerName gmName message)]
            | none => out.effects
          else out.effects) ++
            [Eff.auditInsert (mkAudit s env item out.status out.result)] }) := by
    simp only [ProcessInboxItemFull]
    rw [if_pos hrl]
  refine ⟨?_, ?_⟩
  · intro hp
    rw [hfull]
    dsimp only
    rw [hred, hp]
    rfl
  · intro p g m hp
    refine ⟨?_, ?_, parseWhisperPayload_inversion item.payload p g m hp⟩
    · intro hoff
      rw [hfull]
      dsimp only
      rw [hred, hp]
      dsimp only
      rw [if_pos (by simp [hoff])]
      rfl
    · intro hon
      rw [hfull]
      dsimp only
      rw [hred, hp]
      dsimp only
      rw [if_neg (by simp [hon])]
      rw [if_pos ⟨hact, rfl⟩]
      refine ⟨rfl, ?_, ?_, ?_, ?_⟩ <;> simp

/-- C7 witness: the demo whisper item for the online player Alice ends ok
and enqueues the gm_whisper event. -/
theorem C7_whisper_relay_witness :
    (ProcessInboxItemFull demoSettings demoWhisperEnv [] c7Item true []).1.status =
      "ok".toList ∧
    Eff.enqueueOutbox "gm_whisper".toList
        (gmWhisperPayload demoWhisperEnv 42 ("Alice".toList) ("Bob".toList)
          ("hi there".toList)) ∈
      (ProcessInboxItemFull demoSettings demoWhisperEnv [] c7Item true []).1.effects := by
  have h := ((C7_whisper_relay demoSettings demoWhisperEnv [] c7Item true [] 7
    (by decide) (by decide) (by decide) (by decide) (by decide)).2
    ("Alice".toList) ("Bob".toList) ("hi there".toList) (by decide)).2.1 (by decide)
  exact ⟨h.1, h.2.2.2.2⟩

/-- The command branch of ProcessInbox, isolated. -/
theorem processInboxItem_command_eq (s : Settings) (env : Env) (item : InboxItem)
    (cS : Bool) (cO : List Char)
    (hact : ToLower item.action = "command".toList) :
    ProcessInboxItem s env item cS cO =
      (if ¬ IsCommandAllowed s.allowAllCommands s.commandAllowList item.payload then
        done env.links item.id "forbidden".toList
          "Command not allowed by GMDiscord.CommandAllowList".toList
      else
        match GetLinkedAccount env.links item.discordUserId with
        | none =>
          done env.links item.id "not_linked".toList
            "Discord user is not linked to a GM account".toList
        | some (accountId, verified) =>
          if ¬ verified then
            done env.links item.id "not_verified".toList
              "Discord user is not verified".toList
          else if env.security accountId < s.minSecurity then
            done env.links item.id "forbidden".toList
              "Account security is too low".toList
          else
            let captured := cO.take s.maxResultLength
            let output :=
              if captured = [] then
                (if cS then "OK".toList else "Error".toList)
              else captured
            let status := if cS then "ok".toList else "error".toList
            { status := status, result := output,
              effects :=
                [Eff.markInboxProcessing item.id,
                 Eff.queueCommand item.id item.discordUserId accountId item.payload,
                 Eff.markInboxResult item.id status output,
                 Eff.enqueueOutbox "command_result".toList
                   (commandResultPayload item.id status output)],
              links := env.links }) := by
  unfold ProcessInboxItem
  rw [hact, if_pos rfl]

/-- The unknown-action branch of ProcessInbox, isolated. -/
theorem processInboxItem_unknown_eq (s : Settings) (env : Env) (item : InboxItem)
    (cS : Bool) (cO : List Char)
    (h1 : ToLower item.action ≠ "command".toList)
    (h2 : ToLower item.action ≠ "auth".toList)
    (h3 : ToLower item.action ≠ "whisper".toList) :
    ProcessInboxItem s env item cS cO =
      done env.links item.id "invalid".toList "Unknown action".toList := by
  unfold ProcessInboxItem
  rw [if_neg h1, if_neg h2, if_neg h3]

/-- Every branch of the source dispatch writes exactly one terminal
MarkInboxResult, no audit rows, and a terminal status from the documented
set; the terminal write carries the outcome status and result. -/
theorem processInboxItem_shape (s : Settings) (env : Env) (item : InboxItem)
    (cS : Bool) (cO : List Char) :
    (ProcessInboxItem s env item cS cO).status ∈ inboxTerminalStatuses ∧
    ((ProcessInboxItem s env item cS cO).effects.countP effIsMark) = 1 ∧
    ((ProcessInboxItem s env item cS cO).effects.countP effIsAudit) = 0 ∧
    Eff.markInboxResult item.id (ProcessInboxItem s env item cS cO).status
        (ProcessInboxItem s env item cS cO).result ∈
      (ProcessInboxItem s env item cS cO).effects := by
  by_cases h1 : ToLower item.action = "command".toList
  · rw [processInboxItem_command_eq s env item cS cO h1]
    by_cases hA : IsCommandAllowed s.allowAllCommands s.commandAllowList item.payload
    · rw [if_neg (by simp [hA])]
      rcases hg : GetLinkedAccount env.links item.discordUserId with _ | ⟨acc, v⟩
      · exact ⟨(by decide : ("not_linked".toList ∈ inboxTerminalStatuses)),
          by simp [done, effIsMark, List.countP_cons],
          by simp [done, effIsAudit, List.countP_cons],
          by simp [done]⟩
      · dsimp only
        cases v
        · rw [if_pos (by simp)]
          exact ⟨(by decide : ("not_verified".toList ∈ inboxTerminalStatuses)),
            by simp [done, effIsMark, List.countP_cons],
            by simp [done, effIsAudit, List.countP_cons],
            by simp [done]⟩
        · rw [if_neg (by simp)]
          by_cases hs : env.security acc < s.minSecurity
          · rw [if_pos hs]
            exact ⟨(by decide : ("forbidden".toList ∈ inboxTerminalStatuses)),
              by simp [done, effIsMark, List.countP_cons],
              by simp [done, effIsAudit, List.countP_cons],
              by simp [done]⟩
          · rw [if_neg hs]
            cases cS
            · exact ⟨(by decide : ("error".toList ∈ inboxTerminalStatuses)),
                by simp [effIsMark, List.countP_cons],
                by simp [effIsAudit, List.countP_cons],
                by simp⟩
            · exact ⟨(by decide : ("ok".toList ∈ inboxTerminalStatuses)),
                by simp [effIsMark, List.countP_cons],
                by simp [effIsAudit, List.countP_cons],
                by simp⟩
    · rw [if_pos (by simp [hA])]
      exact ⟨(by decide : ("forbidden".toList ∈ inboxTerminalStatuses)),
        by simp [done, effIsMark, List.countP_cons],
        by simp [done, effIsAudit, List.countP_cons],
        by simp [done]⟩
  · by_cases h2 : ToLower item.action = "auth".toList
    · rw [processInboxItem_auth_eq s env item cS cO h2]
      by_cases hp : item.payload = []
      · rw [if_pos hp]
        exact ⟨(by decide : ("invalid".toList ∈ inboxTerminalStatuses)),
          by simp [done, effIsMark, List.countP_cons],
          by simp [done, effIsAudit, List.countP_cons],
          by simp [done]⟩
      · rw [if_neg hp]
        rcases hv : VerifyAndLinkSecret env.verify env.now item.discordUserId
            item.payload env.links with ⟨b, links2⟩
        cases b
        · exact ⟨(by decide : ("invalid".toList ∈ inboxTerminalStatuses)),
            by simp [done, effIsMark, List.countP_cons],
            by simp [done, effIsAudit, List.countP_cons],
            by simp [done]⟩
        · exact ⟨(by decide : ("ok".toList ∈ inboxTerminalStatuses)),
            by simp [done, effIsMark, List.countP_cons],
            by simp [done, effIsAudit, List.countP_cons],
            by simp [done]⟩
    · by_cases h3 : ToLower item.action = "whisper".toList
      · rw [processInboxItem_whisper_eq s env item cS cO h3]
        by_cases hw : s.whisperEnabled
        · rw [if_neg (by simp [hw])]
          rcases hg : GetLinkedAccount env.links item.discordUserId with _ | ⟨acc, v⟩
          · exact ⟨(by decide : ("not_verified".toList ∈ inboxTerminalStatuses)),
              by simp [done, effIsMark, List.countP_cons],
              by simp [done, effIsAudit, List.countP_cons],
              by simp [done]⟩
          · dsimp only
            cases v
            · rw [if_pos (by simp)]
              exact ⟨(by decide : ("not_verified".toList ∈ inboxTerminalStatuses)),
                by simp [done, effIsMark, List.countP_cons],
                by simp [done, effIsAudit, List.countP_cons],
                by simp [done]⟩
            · rw [if_neg (by simp)]
              by_cases hs : env.security acc < s.minSecurity
              · rw [if_pos hs]
                exact ⟨(by decide : ("forbidden".toList ∈ inboxTerminalStatuses)),
                  by simp [done, effIsMark, List.countP_cons],
                  by simp [done, effIsAudit, List.countP_cons],
                  by simp [done]⟩
              · rw [if_neg hs]
                rcases hpw : ParseWhisperPayload item.payload with _ | ⟨p, g, m⟩
                · exact ⟨(by decide : ("invalid".toList ∈ inboxTerminalStatuses)),
                    by simp [done, effIsMark, List.countP_cons],
                    by simp [done, effIsAudit, List.countP_cons],
                    by simp [done]⟩
                · dsimp only
                  by_cases ho : env.onlineByName p
                  · rw [if_neg (by simp [ho])]
                    exact ⟨(by decide : ("ok".toList ∈ inboxTerminalStatuses)),
                      by simp [effIsMark, List.countP_cons],
                      by simp [effIsAudit, List.countP_cons],
                      by simp⟩
                  · rw [if_pos (by simp [ho])]
                    exact ⟨(by decide : ("player_offline".toList ∈ inboxTerminalStatuses)),
                      by simp [done, effIsMark, List.countP_cons],
                      by simp [done, effIsAudit, List.countP_cons],
                      by simp [done]⟩
        · rw [if_pos (by simp [hw])]
          exact ⟨(by decide : ("disabled".toList ∈ inboxTerminalStatuses)),
            by simp [done, effIsMark, List.countP_cons],
            by simp [done, effIsAudit, List.countP_cons],
            by simp [done]⟩
      · rw [processInboxItem_unknown_eq s env item cS cO h1 h2 h3]
        exact ⟨(by decide : ("invalid".toList ∈ inboxTerminalStatuses)),
          by simp [done, effIsMark, List.countP_cons],
          by simp [done, effIsAudit, List.countP_cons],
          by simp [done]⟩

/-- C1: processing one inbox item end to end, whatever the action kind and
outcome (the asynchronous command completion included), yields exactly one
terminal status from the documented set, writes exactly one terminal
MarkInboxResult carrying that status, and writes exactly one audit row
(modelled from the spec, the writer being absent from the source snapshot)
that records the actor, the action kind, the resolved category, the status,
the detail and the payload capped to the configured size. -/
theorem C1_inbox_disposition (s : Settings) (env : Env) (bucket : List Nat)
    (item : InboxItem) (cS : Bool) (cO : List Char) :
    (ProcessInboxItemFull s env bucket item cS cO).1.status ∈ inboxTerminalStatuses ∧
    ((ProcessInboxItemFull s env bucket item cS cO).1.effects.countP effIsMark) = 1 ∧
    ((ProcessInboxItemFull s env bucket item cS cO).1.effects.countP effIsAudit) = 1 ∧
    Eff.markInboxResult item.id (ProcessInboxItemFull s env bucket item cS cO).1.status
        (ProcessInboxItemFull s env bucket item cS cO).1.result ∈
      (ProcessInboxItemFull s env bucket item cS cO).1.effects ∧
    Eff.auditInsert (mkAudit s env item
        (ProcessInboxItemFull s env bucket item cS cO).1.status
        (ProcessInboxItemFull s env bucket item cS cO).1.result) ∈
      (ProcessInboxItemFull s env bucket item cS cO).1.effects ∧
    (mkAudit s env item (ProcessInboxItemFull s env bucket item cS cO).1.status
        (ProcessInboxItemFull s env bucket item cS cO).1.result).discordUserId =
      item.discordUserId ∧
    (mkAudit s env item (ProcessInboxItemFull s env bucket item cS cO).1.status
        (ProcessInboxItemFull s env bucket item cS cO).1.result).status =
      (ProcessInboxItemFull s env bucket item cS cO).1.status ∧
    (mkAudit s env item (ProcessInboxItemFull s env bucket item cS cO).1.status
        (ProcessInboxItemFull s env bucket item cS cO).1.result).payload =
      item.payload.take s.auditPayloadMax := by
  by_cases hrl : (rlCheck s env.now bucket).1 = true
  · have hfull : (ProcessInboxItemFull s env bucket item cS cO).1 =
        (let out := ProcessInboxItem s env item cS cO
         { out with effects :=
            (if ToLower item.action = "whisper".toList ∧ out.status = "ok".toList then
              match ParseWhisperPayload item.payload with
              | some (playerName, gmName, message) =>
                out.effects ++ [Eff.enqueueOutbox "gm_whisper".toList
                  (gmWhisperPayload env item.discordUserId playerName gmName message)]
              | none => out.effects
            else out.effects) ++
              [Eff.auditInsert (mkAudit s env item out.status out.result)] }) := by
      simp only [ProcessInboxItemFull]
      rw [if_pos hrl]
    obtain ⟨h1, h2, h3, h4⟩ := processInboxItem_shape s env item cS cO
    rw [hfull]
    dsimp only
    by_cases hcond : (ToLower item.action = "whisper".toList ∧
        (ProcessInboxItem s env item cS cO).status = "ok".toList)
    · rw [if_pos hcond]
      rcases hpw : ParseWhisperPayload item.payload with _ | ⟨p, g, m⟩ <;> dsimp only
      · exact ⟨h1,
          by rw [List.countP_append]; simp [h2, effIsMark],
          by rw [List.countP_append]; simp [h3, effIsAudit],
          by simp [h4],
          by simp,
          rfl, rfl, rfl⟩
      · exact ⟨h1,
          by rw [List.countP_append, List.countP_append]; simp [h2, effIsMark],
          by rw [List.countP_append, List.countP_append]; simp [h3, effIsAudit],
          by simp [h4],
          by simp,
          rfl, rfl, rfl⟩
    · rw [if_neg hcond]
      exact ⟨h1,
        by rw [List.countP_append]; simp [h2, effIsMark],
        by rw [List.countP_append]; simp [h3, effIsAudit],
        by simp [h4],
        by simp,
        rfl, rfl, rfl⟩
  · have hfull : (ProcessInboxItemFull s env bucket item cS cO).1 =
        { status := "rate_limited".toList, result := "Rate limit exceeded".toList,
          effects :=
            [Eff.markInboxResult item.id ("rate_limited".toList)
              ("Rate limit exceeded".toList),
             Eff.auditInsert (mkAudit s env item ("rate_limited".toList)
               ("Rate limit exceeded".toList))],
          links := env.links } := by
      simp only [ProcessInboxItemFull]
      rw [if_neg hrl]
    rw [hfull]
    exact ⟨(by decide : ("rate_limited".toList ∈ inboxTerminalStatuses)),
      by simp [effIsMark, List.countP_cons],
      by simp [effIsAudit, List.countP_cons],
      by simp,
      by simp,
      rfl, rfl, rfl⟩

/-- C6: the source inbox processor has no ticket_assign branch, so the
ticket_assign item the bot enqueues for a verified GameMaster-level actor
falls into the unknown-action branch and is marked done invalid with the
text Unknown action, instead of being translated into the in-game
assignment command. -/
theorem C6_ticket_assign_marked_unknown :
    GetLinkedAccount demoEnv.links c6Item.discordUserId = some (7, true) ∧
    demoSettings.minSecurity ≤ demoEnv.security 7 ∧
    (ProcessInboxItem demoSettings demoEnv c6Item true []).status = "invalid".toList ∧
    (ProcessInboxItem demoSettings demoEnv c6Item true []).result =
      "Unknown action".toList := by
  refine ⟨by decide, by decide, by decide, by decide⟩

/- Round trip of the ticket room name: digit characters, natToChars,
findSplit over an appended prefix, the stoul run on a digit string, and the
two replacement passes of FormatTicketRoomName on the default pattern. -/

theorem digitChar_facts (m : Nat) (hm : m < 10) :
    (Char.ofNat (48 + m)).isDigit = true ∧
    sanitizeC (Char.ofNat (48 + m)) = Char.ofNat (48 + m) ∧
    toLowerC (Char.ofNat (48 + m)) = Char.ofNat (48 + m) ∧
    (Char.ofNat (48 + m)).toNat = 48 + m ∧
    Char.ofNat (48 + m) ≠ lbrace ∧
    Char.ofNat (48 + m) ≠ '-' ∧
    Char.ofNat (48 + m) ≠ '+' ∧
    isSpaceC (Char.ofNat (48 + m)) = false := by
  interval_cases m <;> exact ⟨by decide, by decide, by decide, by decide,
    by decide, by decide, by decide, by decide⟩

theorem natToCharsAux_zero (fuel : Nat) (acc : List Char) :
    natToCharsAux fuel 0 acc = acc := by
  cases fuel <;> simp [natToCharsAux]

theorem natToCharsAux_mem : ∀ (fuel n : Nat) (acc : List Char) (c : Char),
    c ∈ natToCharsAux fuel n acc →
    c ∈ acc ∨ ∃ m, m < 10 ∧ c = Char.ofNat (48 + m) := by
  intro fuel
  induction fuel with
  | zero =>
    intro n acc c h
    simp only [natToCharsAux] at h
    exact Or.inl h
  | succ fuel ih =>
    intro n acc c h
    simp only [natToCharsAux] at h
    by_cases hn : n = 0
    · rw [if_pos hn] at h
      exact Or.inl h
    · rw [if_neg hn] at h
      rcases ih (n / 10) _ c h with h2 | h2
      · rcases List.mem_cons.1 h2 with h3 | h3
        · exact Or.inr ⟨n % 10, Nat.mod_lt _ (by omega), h3⟩
        · exact Or.inl h3
      · exact Or.inr h2

theorem natToCharsAux_append : ∀ (fuel n : Nat) (acc : List Char),
    natToCharsAux fuel n acc = natToCharsAux fuel n [] ++ acc := by
  intro fuel
  induction fuel with
  | zero => intro n acc; simp [natToCharsAux]
  | succ fuel ih =>
    intro n acc
    simp only [natToCharsAux]
    by_cases hn : n = 0
    · rw [if_pos hn, if_pos hn]
      simp
    · rw [if_neg hn, if_neg hn]
      rw [ih (n / 10) (Char.ofNat (48 + n % 10) :: acc),
        ih (n / 10) [Char.ofNat (48 + n % 10)]]
      simp

theorem digitsVal_concat (X : List Char) (d : Char) :
    digitsVal (X ++ [d]) = digitsVal X * 10 + (d.toNat - 48) := by
  simp [digitsVal, List.foldl_append]

theorem natToCharsAux_val : ∀ (fuel n : Nat), 0 < n → n ≤ fuel →
    digitsVal (natToCharsAux fuel n []) = n := by
  intro fuel
  induction fuel with
  | zero => intro n h1 h2; omega
  | succ fuel ih =>
    intro n h1 h2
    simp only [natToCharsAux]
    rw [if_neg (by omega)]
    rw [natToCharsAux_append fuel (n / 10) [Char.ofNat (48 + n % 10)]]
    rw [digitsVal_concat]
    have hd : (Char.ofNat (48 + n % 10)).toNat - 48 = n % 10 := by
      have h10 := (digitChar_facts (n % 10) (Nat.mod_lt _ (by omega))).2.2.2.1
      omega
    rw [hd]
    by_cases hn : n < 10
    · rw [show n / 10 = 0 by omega, natToCharsAux_zero]
      simp [digitsVal]
      omega
    · have hlt : n / 10 < n := Nat.div_lt_self (by omega) (by omega)
      rw [ih (n / 10) (by omega) (by omega)]
      omega

theorem natToChars_spec (n : Nat) (h1 : 0 < n) :
    digitsVal (natToChars n) = n ∧ natToChars n ≠ [] ∧
    ∀ c ∈ natToChars n, ∃ m, m < 10 ∧ c = Char.ofNat (48 + m) := by
  unfold natToChars
  rw [if_neg (by omega)]
  refine ⟨natToCharsAux_val (n + 1) n h1 (by omega), ?_, ?_⟩
  · intro he
    have hv := natToCharsAux_val (n + 1) n h1 (by omega)
    rw [he] at hv
    simp [digitsVal] at hv
    omega
  · intro c hc
    rcases natToCharsAux_mem (n + 1) n [] c hc with h | h
    · simp at h
    · exact h

theorem findSplit_append (needle : List Char) (c0 : Char)
    (hn : needle.head? = some c0) :
    ∀ (pre tail : List Char), (∀ c ∈ pre, c ≠ c0) →
      findSplit needle (pre ++ tail) =
        (findSplit needle tail).map (fun pq => (pre ++ pq.1, pq.2)) := by
  intro pre
  induction pre with
  | nil =>
    intro tail _
    cases hfs : findSplit needle tail <;> simp [hfs]
  | cons a pre ih =>
    intro tail hpre
    have ha : a ≠ c0 := hpre a (by simp)
    have hnp : needle.isPrefixOf (a :: (pre ++ tail)) = false := by
      cases needle with
      | nil => simp at hn
      | cons nh nt =>
        simp only [List.head?, Option.some.injEq] at hn
        subst hn
        simp only [List.isPrefixOf, Bool.and_eq_false_iff]
        left
        simp only [beq_eq_false_iff_ne, ne_eq]
        exact fun he => ha he.symm
    simp only [List.cons_append, findSplit, List.append_eq, hnp,
      Bool.false_eq_true, if_false]
    rw [ih tail (fun c hc => hpre c (by simp [hc]))]
    cases hfs : findSplit needle tail <;> simp [hfs]

theorem takeWhile_append_dash :
    ∀ (ds : List Char), (∀ c ∈ ds, c ≠ '-') → ∀ (tail : List Char),
      ((ds ++ '-' :: tail).takeWhile (fun c => c != '-')) = ds := by
  intro ds
  induction ds with
  | nil =>
    intro _ tail
    simp [List.takeWhile]
  | cons a ds ih =>
    intro h tail
    have ha : a ≠ '-' := h a (by simp)
    simp only [List.cons_append, List.takeWhile_cons]
    rw [if_pos (by simp [ha])]
    rw [ih (fun c hc => h c (by simp [hc])) tail]

theorem takeWhile_digits :
    ∀ (ds : List Char), (∀ c ∈ ds, c.isDigit = true) →
      ds.takeWhile Char.isDigit = ds := by
  intro ds
  induction ds with
  | nil => intro _; simp
  | cons a ds ih =>
    intro h
    rw [List.takeWhile_cons, if_pos (h a (by simp))]
    rw [ih (fun c hc => h c (by simp [hc]))]

theorem isPrefixOf_self_append (a b : List Char) : a.isPrefixOf (a ++ b) = true := by
  induction a with
  | nil => simp [List.isPrefixOf]
  | cons c a ih => simp [List.isPrefixOf, ih]

theorem stoulChars_digits (ds : List Char) (hne : ds ≠ [])
    (hd : ∀ c ∈ ds, ∃ m, m < 10 ∧ c = Char.ofNat (48 + m))
    (hle : digitsVal ds ≤ ULONG_MAX) :
    stoulChars ds = some (digitsVal ds) := by
  cases ds with
  | nil => exact absurd rfl hne
  | cons c t =>
    obtain ⟨m, hm, hc⟩ := hd c (by simp)
    have hf := digitChar_facts m hm
    have hdrop : (c :: t).dropWhile isSpaceC = c :: t := by
      rw [List.dropWhile_cons, if_neg (by rw [hc, hf.2.2.2.2.2.2.2]; simp)]
    have hdigits : ∀ x ∈ c :: t, Char.isDigit x = true := by
      intro x hx
      obtain ⟨mx, hmx, hcx⟩ := hd x hx
      rw [hcx]
      exact (digitChar_facts mx hmx).1
    simp only [stoulChars, hdrop]
    rw [if_neg (by rw [hc]; exact hf.2.2.2.2.2.1), if_neg (by rw [hc]; exact hf.2.2.2.2.2.2.1)]
    dsimp only
    rw [if_pos (hdigits c (by simp))]
    rw [takeWhile_digits (c :: t) hdigits]
    rw [if_pos hle]
    rfl

theorem tryParse_ticket_digits (ds rest : List Char) (tid : Nat)
    (hne : ds ≠ [])
    (hd : ∀ c ∈ ds, ∃ m, m < 10 ∧ c = Char.ofNat (48 + m))
    (hval : digitsVal ds = tid) (h32 : tid < 2 ^ 32) (hpos : 0 < tid) :
    TryParseTicketIdFromThreadName ("ticket-".toList ++ (ds ++ '-' :: rest)) =
      some tid := by
  have hdash : ∀ c ∈ ds, c ≠ '-' := by
    intro c hc
    obtain ⟨m, hm, hcm⟩ := hd c hc
    rw [hcm]
    exact (digitChar_facts m hm).2.2.2.2.2.1
  unfold TryParseTicketIdFromThreadName
  rw [if_pos (isPrefixOf_self_append _ _)]
  rw [show ("ticket-".toList ++ (ds ++ '-' :: rest)).drop 7 = ds ++ '-' :: rest from by
    rw [show (7 : Nat) = ("ticket-".toList).length from rfl, List.drop_left]]
  rw [takeWhile_append_dash ds hdash rest]
  rw [if_neg hne]
  have hle : digitsVal ds ≤ ULONG_MAX := by
    rw [hval]
    have : (2 : Nat) ^ 32 ≤ 2 ^ 64 - 1 := by norm_num
    unfold ULONG_MAX
    omega
  rw [stoulChars_digits ds hne hd hle]
  dsimp only
  rw [hval, Nat.mod_eq_of_lt h32, if_pos hpos]

theorem map_fix (f : Char → Char) : ∀ (l : List Char),
    (∀ c ∈ l, f c = c) → l.map f = l := by
  intro l
  induction l with
  | nil => intro _; rfl
  | cons a t ih =>
    intro h
    simp only [List.map_cons]
    rw [h a (by simp), ih (fun c hc => h c (by simp [hc]))]

theorem replaceAllFuel_done (fuel : Nat) (needle repl hay : List Char)
    (h : findSplit needle hay = none) :
    replaceAllFuel fuel needle repl hay = some hay := by
  cases fuel <;> simp only [replaceAllFuel, h]

theorem replaceAllFuel_step (fuel : Nat) (needle repl hay pre post : List Char)
    (h : findSplit needle hay = some (pre, post)) :
    replaceAllFuel (fuel + 1) needle repl hay =
      replaceAllFuel fuel needle repl (pre ++ repl ++ post) := by
  simp only [replaceAllFuel, h]

theorem formatTicketRoomName_default (fuel tid : Nat) (player : List Char)
    (h1 : 0 < tid) (h3 : findSplit playerNeedle player = none) :
    FormatTicketRoomName (fuel + 1) defaultRoomPattern player tid =
      some ("ticket-".toList ++
        (natToChars tid ++ '-' :: (player.map sanitizeC).map toLowerC)) := by
  have hds := (natToChars_spec tid h1).2.2
  have hnolb : ∀ c ∈ ("ticket-".toList ++ (natToChars tid ++ ['-'])), c ≠ lbrace := by
    intro c hc
    rcases List.mem_append.1 hc with hc | hc
    · exact (by decide : ∀ c ∈ ("ticket-".toList), c ≠ lbrace) c hc
    · rcases List.mem_append.1 hc with hc | hc
      · obtain ⟨m, hm, hcm⟩ := hds c hc
        rw [hcm]
        exact (digitChar_facts m hm).2.2.2.2.1
      · simp only [List.mem_singleton] at hc
        rw [hc]
        decide
  have hshape : ("ticket-".toList ++ (natToChars tid ++ ['-'])) ++ playerNeedle
      = "ticket-".toList ++ (natToChars tid ++ '-' :: playerNeedle) := by simp
  have hfdm := findSplit_append idNeedle lbrace (by decide)
      ("ticket-".toList ++ (natToChars tid ++ ['-'])) playerNeedle hnolb
  rw [(by decide : findSplit idNeedle playerNeedle = none)] at hfdm
  dsimp only [Option.map] at hfdm
  rw [hshape] at hfdm
  have e1 : replaceAllFuel (fuel + 1) idNeedle (natToChars tid) defaultRoomPattern
      = some ("ticket-".toList ++ (natToChars tid ++ '-' :: playerNeedle)) := by
    rw [replaceAllFuel_step fuel idNeedle (natToChars tid) defaultRoomPattern
      ("ticket-".toList) ('-' :: playerNeedle) (by decide)]
    rw [List.append_assoc]
    exact replaceAllFuel_done fuel _ _ _ hfdm
  have hfp := findSplit_append playerNeedle lbrace (by decide)
      ("ticket-".toList ++ (natToChars tid ++ ['-'])) playerNeedle hnolb
  rw [(by decide : findSplit playerNeedle playerNeedle
      = some (([] : List Char), ([] : List Char)))] at hfp
  dsimp only [Option.map] at hfp
  rw [hshape] at hfp
  have hfp2 := findSplit_append playerNeedle lbrace (by decide)
      ("ticket-".toList ++ (natToChars tid ++ ['-'])) player hnolb
  rw [h3] at hfp2
  dsimp only [Option.map] at hfp2
  have e2 : replaceAllFuel (fuel + 1) playerNeedle player
        ("ticket-".toList ++ (natToChars tid ++ '-' :: playerNeedle))
      = some (("ticket-".toList ++ (natToChars tid ++ ['-'])) ++ player) := by
    rw [replaceAllFuel_step fuel playerNeedle player _ _ _ hfp]
    rw [show ((("ticket-".toList ++ (natToChars tid ++ ['-'])) ++ []) ++ player) ++ ([] : List Char)
        = ("ticket-".toList ++ (natToChars tid ++ ['-'])) ++ player from by simp]
    exact replaceAllFuel_done fuel _ _ _ hfp2
  have hmap1 : (natToChars tid).map sanitizeC = natToChars tid := by
    apply map_fix
    intro c hc
    obtain ⟨m, hm, hcm⟩ := hds c hc
    rw [hcm]
    exact (digitChar_facts m hm).2.1
  have hmap2 : (natToChars tid).map toLowerC = natToChars tid := by
    apply map_fix
    intro c hc
    obtain ⟨m, hm, hcm⟩ := hds c hc
    rw [hcm]
    exact (digitChar_facts m hm).2.2.1
  simp only [FormatTicketRoomName]
  rw [if_neg (by decide : ¬ (defaultRoomPattern = ([] : List Char)))]
  rw [e1]
  dsimp only
  rw [e2]
  dsimp only
  simp only [ToLower, List.map_append, List.map_cons, List.map_nil, hmap1, hmap2]
  rw [(by decide : ("ticket-".toList).map sanitizeC = "ticket-".toList),
      (by decide : ("ticket-".toList).map toLowerC = "ticket-".toList),
      (by decide : sanitizeC '-' = '-'), (by decide : toLowerC '-' = '-')]
  simp [List.append_assoc]

/-- C10: for every positive uint32 ticket id and every player name that does
not itself contain the player placeholder (the only case in which the source
replace loop terminates and produces a name at all), FormatTicketRoomName
with the default pattern yields a thread name, and
TryParseTicketIdFromThreadName recovers exactly that ticket id from it, so
the thread-name fallback after a restart re-derives the ticket the thread
was created for.  The fuel argument bounds the source while loop; fuel + 1
covers the single replacement the default pattern needs. -/
theorem C10_room_name_roundtrip (fuel tid : Nat) (player : List Char)
    (h1 : 0 < tid) (h2 : tid < 2 ^ 32)
    (h3 : findSplit playerNeedle player = none) :
    ∃ name,
      FormatTicketRoomName (fuel + 1) defaultRoomPattern player tid = some name ∧
      TryParseTicketIdFromThreadName name = some tid := by
  refine ⟨_, formatTicketRoomName_default fuel tid player h1 h3, ?_⟩
  have hspec := natToChars_spec tid h1
  exact tryParse_ticket_digits (natToChars tid)
    ((player.map sanitizeC).map toLowerC) tid
    hspec.2.1 hspec.2.2 hspec.1 h2 h1

/-- Witness for C10: ticket 5, player Bob, at the smallest sufficient fuel. -/
theorem C10_room_name_roundtrip_witness :
    0 < 5 ∧ 5 < 2 ^ 32 ∧ findSplit playerNeedle ("Bob".toList) = none ∧
    ∃ name,
      FormatTicketRoomName 1 defaultRoomPattern ("Bob".toList) 5 = some name ∧
      TryParseTicketIdFromThreadName name = some 5 :=
  ⟨by decide, by decide, by decide,
    C10_room_name_roundtrip 0 5 ("Bob".toList) (by decide) (by decide) (by decide)⟩

end GMDiscord
